import Mathlib

/-!
# Shadow server client session (server/shadow/shadow_client.c)

A shallow embedding of the per-client session code of the shadow server:
`shadow_client_post_connect`, `shadow_client_activate`,
`shadow_client_send_surface_bits` and the loop of `shadow_client_thread`.

Conventions.

* C `int` values are `Int`; values stored in `UINT16` / `UINT32` fields are `Nat`
  and every store into such a field goes through `toUINT16` / `toUINT32`.
* Functions of other translation units (the region16 functions, the codecs, the
  capture subsystem, the peer) are either modelled from the specification (and
  marked so) or taken as parameters.
* A read through a NULL message array, or past the end of the array, is a fault:
  the embedded function then yields `none`.
-/

namespace Shadow

/-! ## Machine integers -/

/-- Conversion of a C `int` to `UINT16` (reduction modulo `2^16`). -/
def toUINT16 (v : Int) : Nat := (v % 65536).toNat

/-- Conversion of a C `int` to `UINT32` (reduction modulo `2^32`). -/
def toUINT32 (v : Int) : Nat := (v % 4294967296).toNat

/-! ## Rectangles and regions -/

/-- The `RECTANGLE_16` record: four `UINT16` coordinates, `right` and `bottom` exclusive. -/
structure RECTANGLE_16 where
  left : Nat
  top : Nat
  right : Nat
  bottom : Nat
deriving DecidableEq, Repr

/-- Membership of the pixel `(x, y)` in a rectangle (right and bottom edges excluded). -/
def RECTANGLE_16.contains (r : RECTANGLE_16) (x y : Nat) : Bool :=
  decide (r.left ≤ x) && decide (x < r.right) && decide (r.top ≤ y) && decide (y < r.bottom)

/-- Modelled from the spec: the `REGION16` type of the region16 module, which is not among
the sources. A region ("set of rectangles") is the list of its rectangles and stands for
the union of their pixels. -/
abbrev REGION16 := List RECTANGLE_16

/-- Membership of the pixel `(x, y)` in a region: some rectangle of the region holds it. -/
def REGION16.contains (g : REGION16) (x y : Nat) : Bool :=
  g.any (fun r => r.contains x y)

/-- Modelled from the spec: `rectangles_intersection` of the region16 module (absent from
the sources): the common part of two rectangles, or nothing when they share no pixel. -/
def rectangles_intersection (r1 r2 : RECTANGLE_16) : Option RECTANGLE_16 :=
  let d : RECTANGLE_16 :=
    { left := max r1.left r2.left, top := max r1.top r2.top,
      right := min r1.right r2.right, bottom := min r1.bottom r2.bottom }
  if d.left < d.right ∧ d.top < d.bottom then some d else none

/-- Modelled from the spec: `region16_intersect_rect` of the region16 module (absent from
the sources), "intersect DirtyRegion with the surface-bounds rectangle": every rectangle
is cut to the given rectangle and the empty remainders are dropped. -/
def region16_intersect_rect (src : REGION16) (rect : RECTANGLE_16) : REGION16 :=
  src.filterMap (fun r => rectangles_intersection r rect)

/-- Modelled from the spec: `region16_is_empty` of the region16 module (absent from the
sources): the region holds no rectangle. -/
def region16_is_empty (g : REGION16) : Bool := g.isEmpty

/-- Modelled from the spec: `region16_extents` of the region16 module (absent from the
sources), "the bounding extents of the clipped region": the smallest rectangle holding
every rectangle of the region, and the zero rectangle for the empty region. -/
def region16_extents : REGION16 → RECTANGLE_16
  | [] => { left := 0, top := 0, right := 0, bottom := 0 }
  | [r] => r
  | r :: g =>
    let e := region16_extents g
    { left := min r.left e.left, top := min r.top e.top,
      right := max r.right e.right, bottom := max r.bottom e.bottom }

/-- Modelled from the spec: `region16_clear` of the region16 module (absent from the
sources), "clear DirtyRegion": the empty region. -/
def region16_clear (_g : REGION16) : REGION16 := []

/-- Modelled from the spec: `region16_union_rect` of the region16 module (absent from the
sources), by which the capture subsystem accumulates a reported dirty rectangle into the
invalid region: the rectangle joins the region (a rectangle without pixels adds nothing). -/
def region16_union_rect (src : REGION16) (rect : RECTANGLE_16) : REGION16 :=
  if rect.left < rect.right ∧ rect.top < rect.bottom then src ++ [rect] else src

/-- Accumulation of a sequence of reported dirty rectangles into a region, first to last. -/
def accumulate (g : REGION16) (reported : List RECTANGLE_16) : REGION16 :=
  reported.foldl region16_union_rect g

/-! ## Records of the session -/

/-- The fields of `rdpSettings` that the session code reads or writes. -/
structure rdpSettings where
  DesktopWidth : Nat
  DesktopHeight : Nat
  ColorDepth : Nat
  RemoteFxCodec : Bool
  NSCodec : Bool
  RemoteFxCodecId : Nat
  NSCodecId : Nat
  MultifragMaxRequestSize : Nat
  NlaSecurity : Bool
  TlsSecurity : Bool
  RdpSecurity : Bool
deriving DecidableEq, Repr

/-- The `rdpShadowSurface` record: dimensions and stride are C `int`, `data` is the
framebuffer, `invalidRegion` the accumulated dirty region. -/
structure rdpShadowSurface where
  width : Int
  height : Int
  scanline : Int
  data : List Nat
  invalidRegion : REGION16
deriving DecidableEq, Repr

/-- The `rdpShadowScreen` record, as far as `shadow_client_post_connect` reads it. -/
structure rdpShadowScreen where
  width : Int
  height : Int
deriving DecidableEq, Repr

/-- The fields of `SURFACE_BITS_COMMAND` that `shadow_client_send_surface_bits` assigns
(all `UINT32`, `bitmapData` being the bytes of the stream buffer). -/
structure SURFACE_BITS_COMMAND where
  destLeft : Nat
  destTop : Nat
  destRight : Nat
  destBottom : Nat
  bpp : Nat
  codecID : Nat
  width : Nat
  height : Nat
  bitmapDataLength : Nat
  bitmapData : List Nat
deriving DecidableEq, Repr

/-- The `RFX_RECT` record (four `UINT16` fields). -/
structure RFX_RECT where
  x : Nat
  y : Nat
  width : Nat
  height : Nat
deriving DecidableEq, Repr

/-- The fields of `NSC_MESSAGE` that the session code reads (`UINT32` each), with the
encoded plane data. -/
structure NSC_MESSAGE where
  x : Nat
  y : Nat
  width : Nat
  height : Nat
  data : List Nat
deriving DecidableEq, Repr

/-- What an `*_encode_messages` call hands back: the returned array (`none` for NULL) and
the value stored through the `numMessages` pointer. -/
structure EncodeResult (M : Type) where
  messages : Option (List M)
  numMessages : Int

/-- The codecs of `rdpShadowEncoder`, taken as parameters: the two `*_encode_messages`
functions with the arguments the session passes, and the two `*_write_message` functions,
given by the bytes they put on the stream from position 0. `RM` is the type of an
`RFX_MESSAGE`. -/
structure rdpShadowEncoder (RM : Type) where
  rfx_encode_messages : RFX_RECT → List Nat → Int → Int → Int → Nat → EncodeResult RM
  rfx_write_message : RM → List Nat
  nsc_encode_messages : List Nat → Int → Int → Int → Int → Int → Nat → EncodeResult NSC_MESSAGE
  nsc_write_message : NSC_MESSAGE → List Nat

/-- The callbacks of `rdpUpdate` the session uses: whether a `SurfaceBits` handler is
installed (`IFCALL` skips a NULL handler), and the outcome of `DesktopResize`. -/
structure rdpUpdate where
  SurfaceBits : Bool
  DesktopResize : rdpSettings → Bool

/-- A codec invocation made by one pass of `shadow_client_send_surface_bits`. -/
inductive EncoderCall where
  | rfx (rect : RFX_RECT) (width height scanline : Int) (maxDataSize : Nat)
  | nsc (x y width height scanline : Int) (maxDataSize : Nat)
deriving DecidableEq, Repr

/-- The observable result of one pass of `shadow_client_send_surface_bits`: the returned
`int`, the invalid region afterwards, the commands handed to the `SurfaceBits` handler in
order, and the codec invocations made. -/
structure Outcome where
  ret : Int
  invalidRegion : REGION16
  sent : List SURFACE_BITS_COMMAND
  calls : List EncoderCall
deriving DecidableEq, Repr

/-! ## shadow_client_send_surface_bits -/

/-- The loop `for (i = 0; i < numMessages; i++)` over the message array: `fuel` is the
number of iterations left, `i` the index; iteration `i` reads `messages[i]` and builds one
command. Reading through NULL or past the end of the array is a fault. -/
def sendLoop {M : Type} (messages : Option (List M)) (mk : M → SURFACE_BITS_COMMAND) :
    Nat → Nat → Option (List SURFACE_BITS_COMMAND)
  | 0, _ => some []
  | fuel + 1, i =>
    match messages with
    | none => none
    | some l =>
      match l[i]? with
      | none => none
      | some m => (sendLoop messages mk fuel (i + 1)).map (fun cs => mk m :: cs)

/-- The commands that reach the transport: `IFCALL` drops them when no handler is set. -/
def ifcall (update : rdpUpdate) (cmds : List SURFACE_BITS_COMMAND) : List SURFACE_BITS_COMMAND :=
  if update.SurfaceBits then cmds else []

/-- The command built for one RemoteFX message (lines 145-163). -/
def rfxCommand {RM : Type} (settings : rdpSettings) (encoder : rdpShadowEncoder RM)
    (surface : rdpShadowSurface) (m : RM) : SURFACE_BITS_COMMAND :=
  { codecID := settings.RemoteFxCodecId,
    destLeft := 0, destTop := 0,
    destRight := toUINT32 surface.width, destBottom := toUINT32 surface.height,
    bpp := 32,
    width := toUINT32 surface.width, height := toUINT32 surface.height,
    bitmapDataLength := (encoder.rfx_write_message m).length % 4294967296,
    bitmapData := encoder.rfx_write_message m }

/-- The command built for one NSCodec message (lines 180-198). -/
def nscCommand {RM : Type} (settings : rdpSettings) (encoder : rdpShadowEncoder RM)
    (m : NSC_MESSAGE) : SURFACE_BITS_COMMAND :=
  { bpp := 32, codecID := settings.NSCodecId,
    destLeft := m.x, destTop := m.y,
    destRight := (m.x + m.width) % 4294967296,
    destBottom := (m.y + m.height) % 4294967296,
    width := m.width, height := m.height,
    bitmapDataLength := (encoder.nsc_write_message m).length % 4294967296,
    bitmapData := encoder.nsc_write_message m }

/-- The rectangle `surfaceRect` of lines 110-113. -/
def surfaceRect (surface : rdpShadowSurface) : RECTANGLE_16 :=
  { left := 0, top := 0, right := toUINT16 surface.width, bottom := toUINT16 surface.height }

/-- The invalid region after line 115: clipped to `surfaceRect`, in place. -/
def clippedRegion (surface : rdpShadowSurface) : REGION16 :=
  region16_intersect_rect surface.invalidRegion (surfaceRect surface)

/-- The embedding of `shadow_client_send_surface_bits` (lines 81-209). -/
def shadow_client_send_surface_bits {RM : Type} (update : rdpUpdate) (settings : rdpSettings)
    (encoder : rdpShadowEncoder RM) (surface : rdpShadowSurface) : Option Outcome :=
  let invalidRegion := region16_intersect_rect surface.invalidRegion (surfaceRect surface)
  if region16_is_empty invalidRegion then
    some { ret := 1, invalidRegion := invalidRegion, sent := [], calls := [] }
  else
    let extents := region16_extents invalidRegion
    let nXSrc : Int := extents.left
    let nYSrc : Int := extents.top
    let nWidth : Int := (extents.right : Int) - extents.left
    let nHeight : Int := (extents.bottom : Int) - extents.top
    let pSrcData := surface.data
    let nSrcStep := surface.scanline
    if settings.RemoteFxCodec then
      let rect : RFX_RECT :=
        { x := toUINT16 nXSrc, y := toUINT16 nYSrc,
          width := toUINT16 nWidth, height := toUINT16 nHeight }
      let res := encoder.rfx_encode_messages rect pSrcData surface.width surface.height
        nSrcStep settings.MultifragMaxRequestSize
      match sendLoop res.messages (rfxCommand settings encoder surface) res.numMessages.toNat 0 with
      | none => none
      | some cmds =>
        some { ret := 0, invalidRegion := region16_clear invalidRegion,
               sent := ifcall update cmds,
               calls := [EncoderCall.rfx rect surface.width surface.height nSrcStep
                 settings.MultifragMaxRequestSize] }
    else if settings.NSCodec then
      let res := encoder.nsc_encode_messages pSrcData nXSrc nYSrc nWidth nHeight nSrcStep
        settings.MultifragMaxRequestSize
      match sendLoop res.messages (nscCommand settings encoder) res.numMessages.toNat 0 with
      | none => none
      | some cmds =>
        some { ret := 0, invalidRegion := region16_clear invalidRegion,
               sent := ifcall update cmds,
               calls := [EncoderCall.nsc nXSrc nYSrc nWidth nHeight nSrcStep
                 settings.MultifragMaxRequestSize] }
    else
      some { ret := 0, invalidRegion := region16_clear invalidRegion, sent := [], calls := [] }

/-- The result of the `rfx_encode_messages` call of line 141 for a given surface. -/
def rfxEncoded {RM : Type} (settings : rdpSettings) (encoder : rdpShadowEncoder RM)
    (surface : rdpShadowSurface) : EncodeResult RM :=
  let extents := region16_extents (clippedRegion surface)
  encoder.rfx_encode_messages
    { x := toUINT16 extents.left, y := toUINT16 extents.top,
      width := toUINT16 ((extents.right : Int) - extents.left),
      height := toUINT16 ((extents.bottom : Int) - extents.top) }
    surface.data surface.width surface.height surface.scanline settings.MultifragMaxRequestSize

/-- The result of the `nsc_encode_messages` call of line 176 for a given surface. -/
def nscEncoded {RM : Type} (settings : rdpSettings) (encoder : rdpShadowEncoder RM)
    (surface : rdpShadowSurface) : EncodeResult NSC_MESSAGE :=
  let extents := region16_extents (clippedRegion surface)
  encoder.nsc_encode_messages surface.data extents.left extents.top
    ((extents.right : Int) - extents.left) ((extents.bottom : Int) - extents.top)
    surface.scanline settings.MultifragMaxRequestSize

/-- The codec invocation recorded for the RemoteFX branch. -/
def rfxCall (settings : rdpSettings) (surface : rdpShadowSurface) : EncoderCall :=
  let extents := region16_extents (clippedRegion surface)
  EncoderCall.rfx
    { x := toUINT16 extents.left, y := toUINT16 extents.top,
      width := toUINT16 ((extents.right : Int) - extents.left),
      height := toUINT16 ((extents.bottom : Int) - extents.top) }
    surface.width surface.height surface.scanline settings.MultifragMaxRequestSize

/-- The codec invocation recorded for the NSCodec branch. -/
def nscCall (settings : rdpSettings) (surface : rdpShadowSurface) : EncoderCall :=
  let extents := region16_extents (clippedRegion surface)
  EncoderCall.nsc extents.left extents.top
    ((extents.right : Int) - extents.left) ((extents.bottom : Int) - extents.top)
    surface.scanline settings.MultifragMaxRequestSize

/-- A succeeding transform: the array holds exactly the `numMessages` fragments `l`. -/
def EncodeResult.yields {M : Type} (r : EncodeResult M) (l : List M) : Prop :=
  r.messages = some l ∧ r.numMessages = (l.length : Int)

/-- A failing transform: no message array (NULL) and no message counted. -/
def EncodeResult.failed {M : Type} (r : EncodeResult M) : Prop :=
  r.messages = none ∧ r.numMessages ≤ 0

/-- A transform whose count stays within its array (none counted, or an array at least
that long), so that the loop over it reads no invalid memory. -/
def EncodeResult.safe {M : Type} (r : EncodeResult M) : Prop :=
  r.numMessages ≤ 0 ∨ ∃ l, r.messages = some l ∧ r.numMessages ≤ (l.length : Int)

/-- Codecs whose every transform is `safe`. -/
def rdpShadowEncoder.Safe {RM : Type} (e : rdpShadowEncoder RM) : Prop :=
  (∀ rect data w h step size, (e.rfx_encode_messages rect data w h step size).safe) ∧
  (∀ data x y w h step size, (e.nsc_encode_messages data x y w h step size).safe)

/-- The pixels covered by the destination rectangles of a list of commands. -/
def destContains (cmds : List SURFACE_BITS_COMMAND) (x y : Nat) : Bool :=
  cmds.any (fun c =>
    decide (c.destLeft ≤ x) && decide (x < c.destRight) &&
    decide (c.destTop ≤ y) && decide (y < c.destBottom))

/-! ## Connection callbacks -/

/-- The session state of one client (`rdpShadowClient` with what it reaches through
`client->server` and its peer): the activation flag, the peer settings, the server screen
and the shared surface. -/
structure rdpShadowClient where
  activated : Bool
  settings : rdpSettings
  screen : rdpShadowScreen
  surface : rdpShadowSurface
deriving DecidableEq, Repr

/-- Modelled from the spec: the context memory that `freerdp_peer_context_new` (absent from
the sources) hands to `shadow_client_context_new` is zeroed, so the session starts with
`activated` FALSE ("no encode occurs before this point"); the callback itself only stores
the server and creates the stop event. -/
def shadow_client_context_new (settings : rdpSettings) (screen : rdpShadowScreen)
    (surface : rdpShadowSurface) : rdpShadowClient :=
  { activated := false, settings := settings, screen := screen, surface := surface }

/-- The effects a session performs, in program order. -/
inductive Event where
  | CheckFileDescriptor (ok : Bool)
  | DesktopResize (ok : Bool)
  | x11_shadow_check_event
  | x11_shadow_surface_copy
  | send_surface_bits (o : Outcome)
  | region16_clear
  | Disconnect
  | freerdp_peer_context_free
  | freerdp_peer_free
deriving DecidableEq, Repr

/-- What a peer callback leaves behind: the returned `BOOL`, the session state and the
effects performed. -/
structure CallbackResult where
  ret : Bool
  client : rdpShadowClient
  events : List Event
deriving DecidableEq, Repr

/-- The embedding of `shadow_client_capabilities` (lines 48-51). -/
def shadow_client_capabilities (client : rdpShadowClient) : CallbackResult :=
  { ret := true, client := client, events := [] }

/-- The embedding of `shadow_client_post_connect` (lines 53-68). The outcome of the
`DesktopResize` call is recorded in the event but not used by the function. -/
def shadow_client_post_connect (update : rdpUpdate) (client : rdpShadowClient) :
    CallbackResult :=
  let settings : rdpSettings :=
    { client.settings with
      DesktopWidth := toUINT32 client.screen.width,
      DesktopHeight := toUINT32 client.screen.height,
      ColorDepth := 32 }
  { ret := true,
    client := { client with settings := settings },
    events := [Event.DesktopResize (update.DesktopResize settings)] }

/-- The embedding of `shadow_client_activate` (lines 70-79). -/
def shadow_client_activate (client : rdpShadowClient) : CallbackResult :=
  { ret := true, client := { client with activated := true }, events := [] }

/-! ## The session loop of shadow_client_thread -/

/-- The callbacks that `shadow_client_thread` registers on the peer (lines 287-289). -/
inductive PeerCallback where
  | Capabilities
  | PostConnect
  | Activate
deriving DecidableEq, Repr

/-- Dispatch of a registered callback. -/
def PeerCallback.run (update : rdpUpdate) : PeerCallback → rdpShadowClient → CallbackResult
  | PeerCallback.Capabilities, c => shadow_client_capabilities c
  | PeerCallback.PostConnect, c => shadow_client_post_connect update c
  | PeerCallback.Activate, c => shadow_client_activate c

/-- What the environment presents to one iteration of the loop: the state of the three
event handles when polled (lines 308, 313, 322); for `peer->CheckFileDescriptor` the
settings it negotiates, the registered callbacks it invokes and its result; the effect of
the capture subsystem's `x11_shadow_check_event` on the invalid region and of
`x11_shadow_surface_copy` on the surface; and the behaviour of the (stateful) codecs
during this iteration. -/
structure TickInput (RM : Type) where
  stop : Bool
  clientEvent : Bool
  negotiate : rdpSettings → rdpSettings
  callbacks : List PeerCallback
  checkOk : Bool
  subsystemEvent : Bool
  check_event : REGION16 → REGION16
  surface_copy : rdpShadowSurface → rdpShadowSurface
  encoder : rdpShadowEncoder RM

/-- The state, effects and `break` flag after (part of) one iteration. -/
structure TickResult where
  client : rdpShadowClient
  events : List Event
  exit : Bool
deriving DecidableEq, Repr

/-- The callbacks invoked by the peer, in order. -/
def runCallbacks (update : rdpUpdate) :
    List PeerCallback → rdpShadowClient → rdpShadowClient × List Event
  | [], c => (c, [])
  | cb :: rest, c =>
    let r := cb.run update c
    let q := runCallbacks update rest r.client
    (q.1, r.events ++ q.2)

/-- Lines 313-320: when the client event is signalled, `peer->CheckFileDescriptor` runs;
its failure breaks out of the loop. -/
def transportStep {RM : Type} (update : rdpUpdate) (inp : TickInput RM)
    (client : rdpShadowClient) : TickResult :=
  if inp.clientEvent then
    let c1 : rdpShadowClient := { client with settings := inp.negotiate client.settings }
    let q := runCallbacks update inp.callbacks c1
    { client := q.1, events := q.2 ++ [Event.CheckFileDescriptor inp.checkOk],
      exit := !inp.checkOk }
  else
    { client := client, events := [], exit := false }

/-- Lines 322-325: when the subsystem event is signalled, `x11_shadow_check_event` runs. -/
def captureStep {RM : Type} (inp : TickInput RM) (client : rdpShadowClient) :
    rdpShadowClient × List Event :=
  if inp.subsystemEvent then
    ({ client with
        surface := { client.surface with
          invalidRegion := inp.check_event client.surface.invalidRegion } },
      [Event.x11_shadow_check_event])
  else
    (client, [])

/-- Lines 327-332: when the session is activated, copy the surface, run one encode pass
(whose return value is dropped) and clear the invalid region. -/
def encodeStep {RM : Type} (update : rdpUpdate) (inp : TickInput RM)
    (client : rdpShadowClient) : Option (rdpShadowClient × List Event) :=
  if client.activated then
    let surface := inp.surface_copy client.surface
    match shadow_client_send_surface_bits update client.settings inp.encoder surface with
    | none => none
    | some o =>
      some ({ client with
              surface := { surface with invalidRegion := region16_clear o.invalidRegion } },
            [Event.x11_shadow_surface_copy, Event.send_surface_bits o, Event.region16_clear])
  else
    some (client, [])

/-- One iteration of the `while (1)` loop (lines 299-333). -/
def tick {RM : Type} (update : rdpUpdate) (inp : TickInput RM) (client : rdpShadowClient) :
    Option TickResult :=
  if inp.stop then
    some { client := client, events := [], exit := true }
  else
    let t := transportStep update inp client
    if t.exit then
      some t
    else
      let c := captureStep inp t.client
      match encodeStep update inp c.1 with
      | none => none
      | some e => some { client := e.1, events := t.events ++ c.2 ++ e.2, exit := false }

/-- The state and effects of a run, and whether the loop was left. -/
structure RunResult where
  client : rdpShadowClient
  events : List Event
  exited : Bool
deriving DecidableEq, Repr

/-- The `while (1)` loop run over the iterations the environment presents; when these run
out before a `break`, the loop has not been left. -/
def sessionLoop {RM : Type} (update : rdpUpdate) :
    List (TickInput RM) → rdpShadowClient → Option RunResult
  | [], c => some { client := c, events := [], exited := false }
  | inp :: rest, c =>
    match tick update inp c with
    | none => none
    | some r =>
      if r.exit then
        some { client := r.client, events := r.events, exited := true }
      else
        (sessionLoop update rest r.client).map
          (fun q => { q with events := r.events ++ q.events })

/-- The embedding of `shadow_client_thread` (lines 257-343): the settings fixed before the
loop, the loop, and after a `break` the disconnect and the release of the peer. The
certificate files written by `shadow_generate_certificate`, the registration of the
callbacks and `peer->Initialize` leave no trace in the session state and are not
represented. -/
def shadow_client_thread {RM : Type} (update : rdpUpdate) (inputs : List (TickInput RM))
    (client : rdpShadowClient) : Option RunResult :=
  let settings : rdpSettings :=
    { client.settings with
      RemoteFxCodec := true, ColorDepth := 32,
      NlaSecurity := false, TlsSecurity := true, RdpSecurity := false }
  match sessionLoop update inputs { client with settings := settings } with
  | none => none
  | some r =>
    if r.exited then
      some { r with
             events := r.events ++
               [Event.Disconnect, Event.freerdp_peer_context_free, Event.freerdp_peer_free] }
    else
      some r

/-- The commands handed to the transport by the encode passes of a run, in order. -/
def emitted : List Event → List SURFACE_BITS_COMMAND
  | [] => []
  | Event.send_surface_bits o :: es => o.sent ++ emitted es
  | _ :: es => emitted es

/-- The effects of the encode branch of an iteration (lines 329-331). -/
def Event.isEncode : Event → Bool
  | Event.x11_shadow_surface_copy => true
  | Event.send_surface_bits _ => true
  | Event.region16_clear => true
  | _ => false

/-- The effects performed after the loop (lines 335-338). -/
def Event.isTeardown : Event → Bool
  | Event.Disconnect => true
  | Event.freerdp_peer_context_free => true
  | Event.freerdp_peer_free => true
  | _ => false

/-! ## Concrete sessions used to evaluate the definitions -/

/-- Settings with the given codec selection. -/
def exSettings (fx nsc : Bool) : rdpSettings :=
  { DesktopWidth := 0, DesktopHeight := 0, ColorDepth := 0,
    RemoteFxCodec := fx, NSCodec := nsc, RemoteFxCodecId := 3, NSCodecId := 1,
    MultifragMaxRequestSize := 65535,
    NlaSecurity := false, TlsSecurity := false, RdpSecurity := false }

/-- A 1920x1080 surface with the given invalid region. -/
def exSurface (g : REGION16) : rdpShadowSurface :=
  { width := 1920, height := 1080, scanline := 7680, data := [], invalidRegion := g }

/-- The dirty rectangle (0,0)-(100,50). -/
def exRect : RECTANGLE_16 := { left := 0, top := 0, right := 100, bottom := 50 }

/-- Codecs that succeed: RemoteFX returns the one fragment `7`, NSCodec returns the
requested rectangle as one tile. -/
def exEncoder : rdpShadowEncoder Nat :=
  { rfx_encode_messages := fun _ _ _ _ _ _ => { messages := some [7], numMessages := 1 },
    rfx_write_message := fun m => [m],
    nsc_encode_messages := fun _ x y w h _ _ =>
      { messages := some [{ x := x.toNat, y := y.toNat, width := w.toNat, height := h.toNat,
                            data := [] }],
        numMessages := 1 },
    nsc_write_message := fun m => m.data }

/-- Codecs whose transform fails: no message array, no message counted. -/
def exFailingEncoder : rdpShadowEncoder Nat :=
  { rfx_encode_messages := fun _ _ _ _ _ _ => { messages := none, numMessages := 0 },
    rfx_write_message := fun m => [m],
    nsc_encode_messages := fun _ _ _ _ _ _ _ => { messages := none, numMessages := 0 },
    nsc_write_message := fun m => m.data }

/-- An update interface with a `SurfaceBits` handler and a `DesktopResize` of the given
outcome. -/
def exUpdate (resizeOk : Bool) : rdpUpdate :=
  { SurfaceBits := true, DesktopResize := fun _ => resizeOk }

/-- Codecs that succeed with two fragments: RemoteFX returns `7` then `9`, NSCodec splits
the requested rectangle into an upper and a lower tile. -/
def exTwoFragmentEncoder : rdpShadowEncoder Nat :=
  { rfx_encode_messages := fun _ _ _ _ _ _ => { messages := some [7, 9], numMessages := 2 },
    rfx_write_message := fun m => [m],
    nsc_encode_messages := fun _ x y w h _ _ =>
      { messages := some
          [{ x := x.toNat, y := y.toNat, width := w.toNat, height := h.toNat / 2,
             data := [1] },
           { x := x.toNat, y := y.toNat + h.toNat / 2, width := w.toNat,
             height := h.toNat - h.toNat / 2, data := [2] }],
        numMessages := 2 },
    nsc_write_message := fun m => m.data }

/-- The pixels of the surface-bounds rectangle (0,0)-(width,height). -/
def boundsContains (surface : rdpShadowSurface) (x y : Nat) : Bool :=
  decide ((x : Int) < surface.width) && decide ((y : Int) < surface.height)

/-- The pixels of clip(bounds, union(reported rectangles)). -/
def clipContains (surface : rdpShadowSurface) (reported : List RECTANGLE_16) (x y : Nat) :
    Bool :=
  reported.any (fun r => r.contains x y) && boundsContains surface x y

/-- The pixels of the tile an `NSC_MESSAGE` encodes: (x, y)-(x+width, y+height). -/
def NSC_MESSAGE.contains (m : NSC_MESSAGE) (x y : Nat) : Bool :=
  decide (m.x ≤ x) && decide (x < m.x + m.width) &&
  decide (m.y ≤ y) && decide (y < m.y + m.height)

/-- A session on the 1920x1080 screen and surface with the given dirty region and codec
selection, as `shadow_client_context_new` leaves it. -/
def exClient (fx nsc : Bool) (g : REGION16) : rdpShadowClient :=
  shadow_client_context_new (exSettings fx nsc) { width := 1920, height := 1080 } (exSurface g)

/-- The value of `client->activated` that line 327 tests: the flag as the transport step
leaves it (the capture step does not touch it). -/
def activatedAtLine327 {RM : Type} (update : rdpUpdate) (inp : TickInput RM)
    (client : rdpShadowClient) : Bool :=
  (transportStep update inp client).client.activated

/-- One iteration's input with the given signals, callbacks and transport result; the
capture subsystem reports the rectangle (0,0)-(100,50) and the codecs succeed. -/
def exTick (stop clientEvent checkOk subsystemEvent : Bool) (callbacks : List PeerCallback) :
    TickInput Nat :=
  { stop := stop, clientEvent := clientEvent, negotiate := fun st => st,
    callbacks := callbacks, checkOk := checkOk, subsystemEvent := subsystemEvent,
    check_event := fun g => region16_union_rect g exRect,
    surface_copy := fun sf => sf, encoder := exEncoder }

/-! ## Lemmas on the message loop -/

theorem sendLoop_zero {M : Type} (messages : Option (List M)) (mk : M → SURFACE_BITS_COMMAND)
    (i : Nat) : sendLoop messages mk 0 i = some [] := by
  simp [sendLoop]

theorem sendLoop_take {M : Type} (l : List M) (mk : M → SURFACE_BITS_COMMAND) :
    ∀ (fuel i : Nat), i + fuel ≤ l.length →
      sendLoop (some l) mk fuel i = some (((l.drop i).take fuel).map mk) := by
  intro fuel
  induction fuel with
  | zero => intro i _; simp [sendLoop]
  | succ k ih =>
    intro i h
    have hi : i < l.length := by omega
    have hk : (i + 1) + k ≤ l.length := by omega
    have hd : l.drop i = l[i] :: l.drop (i + 1) := List.drop_eq_getElem_cons hi
    simp only [sendLoop, List.getElem?_eq_getElem hi, ih (i + 1) hk, Option.map_some']
    rw [hd, List.take_succ_cons, List.map_cons]

theorem sendLoop_yields {M : Type} (r : EncodeResult M) (l : List M)
    (mk : M → SURFACE_BITS_COMMAND) (h : r.yields l) :
    sendLoop r.messages mk r.numMessages.toNat 0 = some (l.map mk) := by
  obtain ⟨hm, hn⟩ := h
  rw [hm, hn]
  have := sendLoop_take l mk l.length 0 (by omega)
  simpa using this

theorem sendLoop_failed {M : Type} (r : EncodeResult M) (mk : M → SURFACE_BITS_COMMAND)
    (h : r.failed) : sendLoop r.messages mk r.numMessages.toNat 0 = some [] := by
  obtain ⟨_, hn⟩ := h
  have : r.numMessages.toNat = 0 := by omega
  rw [this]
  exact sendLoop_zero _ _ _

theorem sendLoop_safe {M : Type} (r : EncodeResult M) (mk : M → SURFACE_BITS_COMMAND)
    (h : r.safe) : ∃ cmds, sendLoop r.messages mk r.numMessages.toNat 0 = some cmds := by
  rcases h with h | ⟨l, hm, hn⟩
  · have : r.numMessages.toNat = 0 := by omega
    exact ⟨[], by rw [this]; exact sendLoop_zero _ _ _⟩
  · refine ⟨((l.drop 0).take r.numMessages.toNat).map mk, ?_⟩
    rw [hm]
    exact sendLoop_take l mk _ 0 (by omega)

/-! ## The branches of shadow_client_send_surface_bits -/

theorem send_empty {RM : Type} (update : rdpUpdate) (settings : rdpSettings)
    (encoder : rdpShadowEncoder RM) (surface : rdpShadowSurface)
    (h : region16_is_empty (clippedRegion surface) = true) :
    shadow_client_send_surface_bits update settings encoder surface =
      some { ret := 1, invalidRegion := [], sent := [], calls := [] } := by
  have hnil : clippedRegion surface = [] := by
    simpa [region16_is_empty, List.isEmpty_iff] using h
  unfold clippedRegion at hnil
  simp [shadow_client_send_surface_bits, hnil, region16_is_empty]

theorem send_rfx {RM : Type} (update : rdpUpdate) (settings : rdpSettings)
    (encoder : rdpShadowEncoder RM) (surface : rdpShadowSurface)
    (hne : region16_is_empty (clippedRegion surface) = false)
    (hfx : settings.RemoteFxCodec = true) :
    shadow_client_send_surface_bits update settings encoder surface =
      (sendLoop (rfxEncoded settings encoder surface).messages
          (rfxCommand settings encoder surface)
          (rfxEncoded settings encoder surface).numMessages.toNat 0).map
        (fun cmds => { ret := 0, invalidRegion := [], sent := ifcall update cmds,
                       calls := [rfxCall settings surface] }) := by
  unfold clippedRegion at hne
  simp only [shadow_client_send_surface_bits, hne, hfx, rfxEncoded, rfxCall, clippedRegion,
    region16_clear, if_true, Bool.false_eq_true, if_false]
  cases sendLoop _ (rfxCommand settings encoder surface) _ 0 <;> rfl

theorem send_nsc {RM : Type} (update : rdpUpdate) (settings : rdpSettings)
    (encoder : rdpShadowEncoder RM) (surface : rdpShadowSurface)
    (hne : region16_is_empty (clippedRegion surface) = false)
    (hfx : settings.RemoteFxCodec = false) (hns : settings.NSCodec = true) :
    shadow_client_send_surface_bits update settings encoder surface =
      (sendLoop (nscEncoded settings encoder surface).messages
          (nscCommand settings encoder)
          (nscEncoded settings encoder surface).numMessages.toNat 0).map
        (fun cmds => { ret := 0, invalidRegion := [], sent := ifcall update cmds,
                       calls := [nscCall settings surface] }) := by
  unfold clippedRegion at hne
  simp only [shadow_client_send_surface_bits, hne, hfx, hns, nscEncoded, nscCall,
    clippedRegion, region16_clear, if_true, Bool.false_eq_true, if_false]
  cases sendLoop _ (nscCommand settings encoder) _ 0 <;> rfl

theorem send_neither {RM : Type} (update : rdpUpdate) (settings : rdpSettings)
    (encoder : rdpShadowEncoder RM) (surface : rdpShadowSurface)
    (hne : region16_is_empty (clippedRegion surface) = false)
    (hfx : settings.RemoteFxCodec = false) (hns : settings.NSCodec = false) :
    shadow_client_send_surface_bits update settings encoder surface =
      some { ret := 0, invalidRegion := [], sent := [], calls := [] } := by
  unfold clippedRegion at hne
  simp [shadow_client_send_surface_bits, hne, hfx, hns, region16_clear]

/-- With codecs that are `safe`, a pass always returns. -/
theorem send_returns {RM : Type} (update : rdpUpdate) (settings : rdpSettings)
    (encoder : rdpShadowEncoder RM) (surface : rdpShadowSurface) (hs : encoder.Safe) :
    ∃ o, shadow_client_send_surface_bits update settings encoder surface = some o := by
  cases hne : region16_is_empty (clippedRegion surface) with
  | true => exact ⟨_, send_empty update settings encoder surface hne⟩
  | false =>
    cases hfx : settings.RemoteFxCodec with
    | true =>
      obtain ⟨cmds, hc⟩ := sendLoop_safe (rfxEncoded settings encoder surface)
        (rfxCommand settings encoder surface) (hs.1 _ _ _ _ _ _)
      exact ⟨_, by rw [send_rfx update settings encoder surface hne hfx, hc]; rfl⟩
    | false =>
      cases hns : settings.NSCodec with
      | true =>
        obtain ⟨cmds, hc⟩ := sendLoop_safe (nscEncoded settings encoder surface)
          (nscCommand settings encoder) (hs.2 _ _ _ _ _ _ _)
        exact ⟨_, by rw [send_nsc update settings encoder surface hne hfx hns, hc]; rfl⟩
      | false => exact ⟨_, send_neither update settings encoder surface hne hfx hns⟩

/-- The return value and the region after a pass that returns. -/
theorem send_ret {RM : Type} (update : rdpUpdate) (settings : rdpSettings)
    (encoder : rdpShadowEncoder RM) (surface : rdpShadowSurface) (o : Outcome)
    (h : shadow_client_send_surface_bits update settings encoder surface = some o) :
    o.invalidRegion = [] ∧
    (region16_is_empty (clippedRegion surface) = true → o.ret = 1) ∧
    (region16_is_empty (clippedRegion surface) = false → o.ret = 0) := by
  cases hne : region16_is_empty (clippedRegion surface) with
  | true =>
    rw [send_empty update settings encoder surface hne] at h
    cases h
    simp
  | false =>
    cases hfx : settings.RemoteFxCodec with
    | true =>
      rw [send_rfx update settings encoder surface hne hfx] at h
      cases hl : sendLoop (rfxEncoded settings encoder surface).messages
        (rfxCommand settings encoder surface)
        (rfxEncoded settings encoder surface).numMessages.toNat 0 with
      | none => rw [hl] at h; cases h
      | some cmds => rw [hl] at h; cases h; simp
    | false =>
      cases hns : settings.NSCodec with
      | true =>
        rw [send_nsc update settings encoder surface hne hfx hns] at h
        cases hl : sendLoop (nscEncoded settings encoder surface).messages
          (nscCommand settings encoder)
          (nscEncoded settings encoder surface).numMessages.toNat 0 with
        | none => rw [hl] at h; cases h
        | some cmds => rw [hl] at h; cases h; simp
      | false =>
        rw [send_neither update settings encoder surface hne hfx hns] at h
        cases h
        simp

/-! ## Regions outside the surface bounds -/

theorem rectangles_intersection_contains (r1 r2 d : RECTANGLE_16)
    (h : rectangles_intersection r1 r2 = some d) (x y : Nat) :
    d.contains x y = (r1.contains x y && r2.contains x y) := by
  simp only [rectangles_intersection] at h
  split at h
  · cases h
    simp only [RECTANGLE_16.contains]
    rw [Bool.eq_iff_iff]
    simp only [Bool.and_eq_true, decide_eq_true_eq, max_le_iff, lt_min_iff]
    tauto
  · cases h

theorem rectangles_intersection_nonempty (r1 r2 d : RECTANGLE_16)
    (h : rectangles_intersection r1 r2 = some d) : d.left < d.right ∧ d.top < d.bottom := by
  simp only [rectangles_intersection] at h
  split at h
  · rename_i hd
    cases h
    exact hd
  · cases h

theorem clipped_empty_of_outside (surface : rdpShadowSurface)
    (h : ∀ x y, REGION16.contains surface.invalidRegion x y = true →
      (surfaceRect surface).contains x y = false) :
    region16_is_empty (clippedRegion surface) = true := by
  have hnil : clippedRegion surface = [] := by
    unfold clippedRegion region16_intersect_rect
    rw [List.filterMap_eq_nil_iff]
    intro r hr
    cases hd : rectangles_intersection r (surfaceRect surface) with
    | none => rfl
    | some d =>
      exfalso
      have hne := rectangles_intersection_nonempty _ _ _ hd
      have hc := rectangles_intersection_contains _ _ _ hd d.left d.top
      have hin : d.contains d.left d.top = true := by
        simp [RECTANGLE_16.contains, hne.1, hne.2]
      rw [hin] at hc
      have hc2 := hc.symm
      rw [Bool.and_eq_true] at hc2
      have hreg : REGION16.contains surface.invalidRegion d.left d.top = true := by
        unfold REGION16.contains
        rw [List.any_eq_true]
        exact ⟨r, hr, hc2.1⟩
      have := h _ _ hreg
      rw [hc2.2] at this
      cases this
  rw [hnil]
  rfl

/-! ## Claims on one encode pass -/

/-- C3: when the dirty region is empty after the intersection with the surface bounds (in
particular when none of its pixels lies inside the bounds), `shadow_client_send_surface_bits`
hands no message to the transport, invokes no codec, leaves the dirty region empty and
returns 1, the non-negative "nothing to do" value, not an error. -/
theorem c3_empty_region_is_noop {RM : Type} (update : rdpUpdate) (settings : rdpSettings)
    (encoder : rdpShadowEncoder RM) (surface : rdpShadowSurface)
    (h : region16_is_empty (clippedRegion surface) = true ∨
      ∀ x y, REGION16.contains surface.invalidRegion x y = true →
        (surfaceRect surface).contains x y = false) :
    ∃ o, shadow_client_send_surface_bits update settings encoder surface = some o ∧
      o.sent = [] ∧ o.calls = [] ∧ o.invalidRegion = [] ∧
      region16_is_empty o.invalidRegion = true ∧ o.ret = 1 ∧ 0 ≤ o.ret := by
  have he : region16_is_empty (clippedRegion surface) = true := by
    rcases h with h | h
    · exact h
    · exact clipped_empty_of_outside surface h
  exact ⟨_, send_empty update settings encoder surface he, rfl, rfl, rfl, rfl, rfl, by decide⟩

/-- Witness for C3: a 1920x1080 surface whose only dirty rectangle (2000,0)-(2100,50) lies
outside the bounds. -/
theorem c3_empty_region_is_noop_witness :
    region16_is_empty (clippedRegion (exSurface [⟨2000, 0, 2100, 50⟩])) = true ∧
    ∃ o, shadow_client_send_surface_bits (exUpdate true) (exSettings true false) exEncoder
        (exSurface [⟨2000, 0, 2100, 50⟩]) = some o ∧
      o.sent = [] ∧ o.calls = [] ∧ o.invalidRegion = [] ∧
      region16_is_empty o.invalidRegion = true ∧ o.ret = 1 ∧ 0 ≤ o.ret :=
  ⟨by decide,
   c3_empty_region_is_noop (exUpdate true) (exSettings true false) exEncoder
     (exSurface [⟨2000, 0, 2100, 50⟩]) (Or.inl (by decide))⟩

theorem exEncoder_safe : exEncoder.Safe :=
  ⟨fun _ _ _ _ _ _ => Or.inr ⟨_, rfl, by simp [exEncoder]⟩,
   fun _ _ _ _ _ _ _ => Or.inr ⟨_, rfl, by simp [exEncoder]⟩⟩

/-- C10: with a non-empty clipped region and neither codec selected the pass emits
nothing, clears the region and returns 0; with RemoteFxCodec selected the NSCodec setting
plays no part and only the RemoteFX transform is invoked; and (the codecs being `safe`)
the pass returns 1 exactly when the clipped region is empty and 0 otherwise, the region
being empty after every pass that returns 0. -/
theorem c10_return_value_and_codec_choice {RM : Type} (update : rdpUpdate)
    (settings : rdpSettings) (encoder : rdpShadowEncoder RM) (surface : rdpShadowSurface)
    (hs : encoder.Safe) :
    (region16_is_empty (clippedRegion surface) = false →
      settings.RemoteFxCodec = false → settings.NSCodec = false →
      shadow_client_send_surface_bits update settings encoder surface =
        some { ret := 0, invalidRegion := [], sent := [], calls := [] }) ∧
    (region16_is_empty (clippedRegion surface) = false →
      settings.RemoteFxCodec = true → settings.NSCodec = true →
      shadow_client_send_surface_bits update settings encoder surface =
        shadow_client_send_surface_bits update { settings with NSCodec := false }
          encoder surface ∧
      ∃ o, shadow_client_send_surface_bits update settings encoder surface = some o ∧
        o.calls = [rfxCall settings surface]) ∧
    (∃ o, shadow_client_send_surface_bits update settings encoder surface = some o ∧
      (o.ret = 1 ↔ region16_is_empty (clippedRegion surface) = true) ∧
      (o.ret = 0 ↔ region16_is_empty (clippedRegion surface) = false) ∧
      (o.ret = 0 → o.invalidRegion = [] ∧ region16_is_empty o.invalidRegion = true)) := by
  refine ⟨fun hne hfx hns => send_neither update settings encoder surface hne hfx hns, ?_, ?_⟩
  · intro hne hfx _
    constructor
    · rw [send_rfx update settings encoder surface hne hfx,
        send_rfx update { settings with NSCodec := false } encoder surface hne hfx]
      rfl
    · obtain ⟨cmds, hc⟩ := sendLoop_safe (rfxEncoded settings encoder surface)
        (rfxCommand settings encoder surface) (hs.1 _ _ _ _ _ _)
      exact ⟨_, by rw [send_rfx update settings encoder surface hne hfx, hc]; rfl, rfl⟩
  · obtain ⟨o, ho⟩ := send_returns update settings encoder surface hs
    obtain ⟨hreg, h1, h0⟩ := send_ret update settings encoder surface o ho
    refine ⟨o, ho, ?_, ?_, ?_⟩
    · constructor
      · intro hr
        cases hne : region16_is_empty (clippedRegion surface) with
        | true => rfl
        | false => have := h0 hne; omega
      · exact h1
    · constructor
      · intro hr
        cases hne : region16_is_empty (clippedRegion surface) with
        | true => have := h1 hne; omega
        | false => rfl
      · exact h0
    · intro _
      exact ⟨hreg, by rw [hreg]; rfl⟩

/-- Witness for C10: the 1920x1080 surface with dirty rectangle (0,0)-(100,50), neither
codec selected. -/
theorem c10_return_value_and_codec_choice_witness :
    exEncoder.Safe ∧
    shadow_client_send_surface_bits (exUpdate true) (exSettings false false) exEncoder
        (exSurface [exRect]) =
      some { ret := 0, invalidRegion := [], sent := [], calls := [] } :=
  ⟨exEncoder_safe,
   (c10_return_value_and_codec_choice (exUpdate true) (exSettings false false) exEncoder
     (exSurface [exRect]) exEncoder_safe).1 (by decide) rfl rfl⟩

/-- C1 as stated fails: on the 1920x1080 surface with dirty rectangle (0,0)-(100,50) and
RemoteFX selected, a transform that yields no message array makes the pass return 0, the
value a succeeding pass returns, and leaves the region empty: pixel (0,0), dirty before the
pass, is no longer in the region after it. -/
theorem c1_counterexample :
    region16_is_empty (clippedRegion (exSurface [exRect])) = false ∧
    (rfxEncoded (exSettings true false) exFailingEncoder (exSurface [exRect])).messages = none ∧
    (∃ o, shadow_client_send_surface_bits (exUpdate true) (exSettings true false)
        exFailingEncoder (exSurface [exRect]) = some o ∧
      o.ret = 0 ∧
      REGION16.contains (exSurface [exRect]).invalidRegion 0 0 = true ∧
      REGION16.contains o.invalidRegion 0 0 = false) ∧
    (∃ o, shadow_client_send_surface_bits (exUpdate true) (exSettings true false)
        exEncoder (exSurface [exRect]) = some o ∧ o.ret = 0) := by
  refine ⟨by decide, rfl, ⟨_, rfl, by decide, by decide, by decide⟩, ⟨_, rfl, by decide⟩⟩

/-- C1 (amended): with a non-empty clipped region and either codec selected, when the
selected codec's transform yields no message array and counts no message, the pass hands
no message to the transport, clears the dirty region and returns 0, as a succeeding pass
does. -/
theorem c1_failed_transform_clears_region {RM : Type} (update : rdpUpdate)
    (settings : rdpSettings) (encoder : rdpShadowEncoder RM) (surface : rdpShadowSurface)
    (hne : region16_is_empty (clippedRegion surface) = false)
    (hfail : (settings.RemoteFxCodec = true ∧ (rfxEncoded settings encoder surface).failed) ∨
      (settings.RemoteFxCodec = false ∧ settings.NSCodec = true ∧
        (nscEncoded settings encoder surface).failed)) :
    ∃ o, shadow_client_send_surface_bits update settings encoder surface = some o ∧
      o.ret = 0 ∧ o.sent = [] ∧ o.invalidRegion = [] := by
  rcases hfail with ⟨hfx, hf⟩ | ⟨hfx, hns, hf⟩
  · have h : shadow_client_send_surface_bits update settings encoder surface =
        some { ret := 0, invalidRegion := [], sent := ifcall update [],
               calls := [rfxCall settings surface] } := by
      rw [send_rfx update settings encoder surface hne hfx, sendLoop_failed _ _ hf]
      rfl
    exact ⟨_, h, rfl, by simp [ifcall], rfl⟩
  · have h : shadow_client_send_surface_bits update settings encoder surface =
        some { ret := 0, invalidRegion := [], sent := ifcall update [],
               calls := [nscCall settings surface] } := by
      rw [send_nsc update settings encoder surface hne hfx hns, sendLoop_failed _ _ hf]
      rfl
    exact ⟨_, h, rfl, by simp [ifcall], rfl⟩

/-- Witness for the amended C1: the failing codecs on the 1920x1080 surface with dirty
rectangle (0,0)-(100,50), RemoteFX selected. -/
theorem c1_failed_transform_clears_region_witness :
    region16_is_empty (clippedRegion (exSurface [exRect])) = false ∧
    (rfxEncoded (exSettings true false) exFailingEncoder (exSurface [exRect])).failed ∧
    ∃ o, shadow_client_send_surface_bits (exUpdate true) (exSettings true false)
        exFailingEncoder (exSurface [exRect]) = some o ∧
      o.ret = 0 ∧ o.sent = [] ∧ o.invalidRegion = [] :=
  ⟨by decide, ⟨rfl, by decide⟩,
   c1_failed_transform_clears_region (exUpdate true) (exSettings true false) exFailingEncoder
     (exSurface [exRect]) (by decide) (Or.inl ⟨rfl, rfl, by decide⟩)⟩

theorem toUINT32_of_int (v : Int) (h0 : 0 ≤ v) (h1 : v < 2147483648) :
    ((toUINT32 v : Nat) : Int) = v := by
  unfold toUINT32
  omega

theorem sendLoop_mem {M : Type} (messages : Option (List M)) (mk : M → SURFACE_BITS_COMMAND) :
    ∀ (fuel i : Nat) (cmds : List SURFACE_BITS_COMMAND),
      sendLoop messages mk fuel i = some cmds → ∀ c ∈ cmds, ∃ m, c = mk m := by
  intro fuel
  induction fuel with
  | zero =>
    intro i cmds h c hc
    simp [sendLoop] at h
    subst h
    cases hc
  | succ k ih =>
    intro i cmds h c hc
    cases messages with
    | none => simp [sendLoop] at h
    | some l =>
      cases hm : l[i]? with
      | none => simp [sendLoop, hm] at h
      | some m =>
        cases hr : sendLoop (some l) mk k (i + 1) with
        | none => simp [sendLoop, hm, hr] at h
        | some rest =>
          simp [sendLoop, hm, hr] at h
          subst h
          rcases List.mem_cons.1 hc with hc | hc
          · exact ⟨m, hc⟩
          · exact ih (i + 1) rest hr c hc

/-- What a RemoteFX pass that returns has sent: commands built by `rfxCommand`. -/
theorem send_rfx_mem {RM : Type} (update : rdpUpdate) (settings : rdpSettings)
    (encoder : rdpShadowEncoder RM) (surface : rdpShadowSurface)
    (hne : region16_is_empty (clippedRegion surface) = false)
    (hfx : settings.RemoteFxCodec = true) (o : Outcome)
    (ho : shadow_client_send_surface_bits update settings encoder surface = some o) :
    ∀ c ∈ o.sent, ∃ m, c = rfxCommand settings encoder surface m := by
  rw [send_rfx update settings encoder surface hne hfx] at ho
  cases hl : sendLoop (rfxEncoded settings encoder surface).messages
    (rfxCommand settings encoder surface)
    (rfxEncoded settings encoder surface).numMessages.toNat 0 with
  | none => rw [hl] at ho; cases ho
  | some cmds =>
    rw [hl] at ho
    cases ho
    intro c hc
    simp only [ifcall] at hc
    split at hc
    · exact sendLoop_mem _ _ _ _ _ hl c hc
    · cases hc

/-- A RemoteFX pass over a succeeding transform: one command per fragment, in order. -/
theorem send_rfx_yields {RM : Type} (update : rdpUpdate) (settings : rdpSettings)
    (encoder : rdpShadowEncoder RM) (surface : rdpShadowSurface) (l : List RM)
    (hne : region16_is_empty (clippedRegion surface) = false)
    (hfx : settings.RemoteFxCodec = true) (hsb : update.SurfaceBits = true)
    (hy : (rfxEncoded settings encoder surface).yields l) :
    shadow_client_send_surface_bits update settings encoder surface =
      some { ret := 0, invalidRegion := [],
             sent := l.map (rfxCommand settings encoder surface),
             calls := [rfxCall settings surface] } := by
  rw [send_rfx update settings encoder surface hne hfx, sendLoop_yields _ l _ hy]
  simp [ifcall, hsb]

/-- An NSCodec pass over a succeeding transform: one command per tile, in order. -/
theorem send_nsc_yields {RM : Type} (update : rdpUpdate) (settings : rdpSettings)
    (encoder : rdpShadowEncoder RM) (surface : rdpShadowSurface) (l : List NSC_MESSAGE)
    (hne : region16_is_empty (clippedRegion surface) = false)
    (hfx : settings.RemoteFxCodec = false) (hns : settings.NSCodec = true)
    (hsb : update.SurfaceBits = true)
    (hy : (nscEncoded settings encoder surface).yields l) :
    shadow_client_send_surface_bits update settings encoder surface =
      some { ret := 0, invalidRegion := [],
             sent := l.map (nscCommand settings encoder),
             calls := [nscCall settings surface] } := by
  rw [send_nsc update settings encoder surface hne hfx hns, sendLoop_yields _ l _ hy]
  simp [ifcall, hsb]

/-- C6: in a pass whose selected codec returns the list `l` of fragments, with the
`SurfaceBits` handler installed, exactly `l.length` commands are handed to the transport
and the i-th one is built from the i-th fragment: the selected codec's id, depth 32 and
that fragment's written payload. -/
theorem c6_messages_follow_fragment_order {RM : Type} (update : rdpUpdate)
    (settings : rdpSettings) (encoder : rdpShadowEncoder RM) (surface : rdpShadowSurface)
    (hne : region16_is_empty (clippedRegion surface) = false)
    (hsb : update.SurfaceBits = true) :
    (∀ l : List RM, settings.RemoteFxCodec = true →
      (rfxEncoded settings encoder surface).yields l →
      ∃ o, shadow_client_send_surface_bits update settings encoder surface = some o ∧
        o.sent.length = l.length ∧
        o.sent.map (fun c => c.bitmapData) = l.map encoder.rfx_write_message ∧
        ∀ (i : Nat) (hi : i < l.length), ∃ c, o.sent[i]? = some c ∧
          c.codecID = settings.RemoteFxCodecId ∧ c.bpp = 32 ∧
          c.bitmapData = encoder.rfx_write_message l[i]) ∧
    (∀ l : List NSC_MESSAGE, settings.RemoteFxCodec = false → settings.NSCodec = true →
      (nscEncoded settings encoder surface).yields l →
      ∃ o, shadow_client_send_surface_bits update settings encoder surface = some o ∧
        o.sent.length = l.length ∧
        o.sent.map (fun c => c.bitmapData) = l.map encoder.nsc_write_message ∧
        ∀ (i : Nat) (hi : i < l.length), ∃ c, o.sent[i]? = some c ∧
          c.codecID = settings.NSCodecId ∧ c.bpp = 32 ∧
          c.bitmapData = encoder.nsc_write_message l[i]) := by
  constructor
  · intro l hfx hy
    refine ⟨_, send_rfx_yields update settings encoder surface l hne hfx hsb hy, ?_, ?_, ?_⟩
    · simp
    · simp [rfxCommand, Function.comp_def]
    · intro i hi
      exact ⟨rfxCommand settings encoder surface l[i], by simp [List.getElem?_eq_getElem hi],
        rfl, rfl, rfl⟩
  · intro l hfx hns hy
    refine ⟨_, send_nsc_yields update settings encoder surface l hne hfx hns hsb hy, ?_, ?_, ?_⟩
    · simp
    · simp [nscCommand, Function.comp_def]
    · intro i hi
      exact ⟨nscCommand settings encoder l[i], by simp [List.getElem?_eq_getElem hi],
        rfl, rfl, rfl⟩

/-- Witness for C6: two fragments from each codec on the 1920x1080 surface with dirty
rectangle (0,0)-(100,50); the payloads reach the transport in fragment order. -/
theorem c6_messages_follow_fragment_order_witness :
    region16_is_empty (clippedRegion (exSurface [exRect])) = false ∧
    (exUpdate true).SurfaceBits = true ∧
    (rfxEncoded (exSettings true false) exTwoFragmentEncoder (exSurface [exRect])).yields
      [7, 9] ∧
    (∃ o, shadow_client_send_surface_bits (exUpdate true) (exSettings true false)
        exTwoFragmentEncoder (exSurface [exRect]) = some o ∧
      o.sent.length = 2 ∧ o.sent.map (fun c => c.bitmapData) = [[7], [9]]) ∧
    (∃ o, shadow_client_send_surface_bits (exUpdate true) (exSettings false true)
        exTwoFragmentEncoder (exSurface [exRect]) = some o ∧
      o.sent.length = 2 ∧ o.sent.map (fun c => c.bitmapData) = [[1], [2]]) := by
  obtain ⟨o, ho, hlen, hmap, _⟩ :=
    (c6_messages_follow_fragment_order (exUpdate true) (exSettings true false)
      exTwoFragmentEncoder (exSurface [exRect]) (by decide) rfl).1 [7, 9] rfl ⟨rfl, rfl⟩
  obtain ⟨q, hq, hqlen, hqmap, _⟩ :=
    (c6_messages_follow_fragment_order (exUpdate true) (exSettings false true)
      exTwoFragmentEncoder (exSurface [exRect]) (by decide) rfl).2
      [{ x := 0, y := 0, width := 100, height := 25, data := [1] },
       { x := 0, y := 25, width := 100, height := 25, data := [2] }] rfl rfl ⟨rfl, rfl⟩
  exact ⟨by decide, rfl, ⟨rfl, rfl⟩, ⟨o, ho, hlen, hmap⟩, ⟨q, hq, hqlen, hqmap⟩⟩

/-- C4: with RemoteFxCodec selected and a non-empty clipped region, every command a pass
emits has destination rectangle (0,0)-(surface.width, surface.height), the surface's width
and height and depth 32, whatever the dirty sub-area; a transform returning `l` makes the
pass emit `l.length` commands; and on a 1920x1080 surface with dirty rectangle
(0,0)-(100,50) a transform returning one fragment makes the pass emit exactly one command,
with destination rectangle (0,0)-(1920,1080). -/
theorem c4_remotefx_full_frame_destination {RM : Type} (update : rdpUpdate)
    (settings : rdpSettings) (encoder : rdpShadowEncoder RM) (surface : rdpShadowSurface)
    (hne : region16_is_empty (clippedRegion surface) = false)
    (hfx : settings.RemoteFxCodec = true)
    (hw : 0 ≤ surface.width ∧ surface.width < 2147483648)
    (hh : 0 ≤ surface.height ∧ surface.height < 2147483648) :
    (∀ o, shadow_client_send_surface_bits update settings encoder surface = some o →
      ∀ c ∈ o.sent, c.destLeft = 0 ∧ c.destTop = 0 ∧
        (c.destRight : Int) = surface.width ∧ (c.destBottom : Int) = surface.height ∧
        (c.width : Int) = surface.width ∧ (c.height : Int) = surface.height ∧ c.bpp = 32) ∧
    (∀ l : List RM, update.SurfaceBits = true →
      (rfxEncoded settings encoder surface).yields l →
      ∃ o, shadow_client_send_surface_bits update settings encoder surface = some o ∧
        o.sent.length = l.length) ∧
    (∀ (data : List Nat) (scanline : Int) (m : RM), update.SurfaceBits = true →
      (rfxEncoded settings encoder
        { width := 1920, height := 1080, scanline := scanline, data := data,
          invalidRegion := [{ left := 0, top := 0, right := 100, bottom := 50 }] }).yields [m] →
      ∃ o c, shadow_client_send_surface_bits update settings encoder
          { width := 1920, height := 1080, scanline := scanline, data := data,
            invalidRegion := [{ left := 0, top := 0, right := 100, bottom := 50 }] } = some o ∧
        o.sent = [c] ∧ c.destLeft = 0 ∧ c.destTop = 0 ∧
        c.destRight = 1920 ∧ c.destBottom = 1080) := by
  refine ⟨?_, ?_, ?_⟩
  · intro o ho c hc
    obtain ⟨m, rfl⟩ := send_rfx_mem update settings encoder surface hne hfx o ho c hc
    exact ⟨rfl, rfl, toUINT32_of_int _ hw.1 hw.2, toUINT32_of_int _ hh.1 hh.2,
      toUINT32_of_int _ hw.1 hw.2, toUINT32_of_int _ hh.1 hh.2, rfl⟩
  · intro l hsb hy
    exact ⟨_, send_rfx_yields update settings encoder surface l hne hfx hsb hy, by simp⟩
  · intro data scanline m hsb hy
    refine ⟨_, _, send_rfx_yields update settings encoder _ [m] rfl hfx hsb hy,
      rfl, rfl, rfl, ?_, ?_⟩
    · simp [rfxCommand, toUINT32]
    · simp [rfxCommand, toUINT32]

/-- Witness for C4: the scenario itself, with the codec that returns the one fragment 7. -/
theorem c4_remotefx_full_frame_destination_witness :
    region16_is_empty (clippedRegion (exSurface [exRect])) = false ∧
    (exSettings true false).RemoteFxCodec = true ∧
    (0 ≤ (exSurface [exRect]).width ∧ (exSurface [exRect]).width < 2147483648) ∧
    (0 ≤ (exSurface [exRect]).height ∧ (exSurface [exRect]).height < 2147483648) ∧
    ∃ o c, shadow_client_send_surface_bits (exUpdate true) (exSettings true false) exEncoder
        (exSurface [exRect]) = some o ∧
      o.sent = [c] ∧ c.destLeft = 0 ∧ c.destTop = 0 ∧
      c.destRight = 1920 ∧ c.destBottom = 1080 :=
  ⟨by decide, rfl, by decide, by decide,
   (c4_remotefx_full_frame_destination (exUpdate true) (exSettings true false) exEncoder
     (exSurface [exRect]) (by decide) rfl (by decide) (by decide)).2.2 [] 7680 7 rfl
     ⟨rfl, rfl⟩⟩

/-- What an NSCodec pass that returns has recorded: the one call on the extents. -/
theorem send_nsc_calls {RM : Type} (update : rdpUpdate) (settings : rdpSettings)
    (encoder : rdpShadowEncoder RM) (surface : rdpShadowSurface)
    (hne : region16_is_empty (clippedRegion surface) = false)
    (hfx : settings.RemoteFxCodec = false) (hns : settings.NSCodec = true) (o : Outcome)
    (ho : shadow_client_send_surface_bits update settings encoder surface = some o) :
    o.calls = [nscCall settings surface] ∧
    ∀ c ∈ o.sent, ∃ m, c = nscCommand settings encoder m := by
  rw [send_nsc update settings encoder surface hne hfx hns] at ho
  cases hl : sendLoop (nscEncoded settings encoder surface).messages
    (nscCommand settings encoder)
    (nscEncoded settings encoder surface).numMessages.toNat 0 with
  | none => rw [hl] at ho; cases ho
  | some cmds =>
    rw [hl] at ho
    cases ho
    refine ⟨rfl, ?_⟩
    intro c hc
    simp only [ifcall] at hc
    split at hc
    · exact sendLoop_mem _ _ _ _ _ hl c hc
    · cases hc

/-- C5: with NSCodec selected and RemoteFxCodec not, and a non-empty clipped region, the
pass invokes the NSCodec transform, once, on the bounding box of the clipped region
(x = extents.left, y = extents.top, width = right - left, height = bottom - top); every
command emitted carries the destination rectangle (x, y)-(x+width, y+height) of its own
tile (the sums taken in `UINT32`); and on a 1920x1080 surface with dirty rectangle
(0,0)-(100,50), a transform returning the requested rectangle as one tile makes the pass
emit exactly one command, with destination rectangle (0,0)-(100,50). -/
theorem c5_nsc_bounding_box_and_tiles {RM : Type} (update : rdpUpdate)
    (settings : rdpSettings) (encoder : rdpShadowEncoder RM) (surface : rdpShadowSurface)
    (hne : region16_is_empty (clippedRegion surface) = false)
    (hfx : settings.RemoteFxCodec = false) (hns : settings.NSCodec = true) :
    (∀ o, shadow_client_send_surface_bits update settings encoder surface = some o →
      o.calls =
        [EncoderCall.nsc
          (region16_extents (clippedRegion surface)).left
          (region16_extents (clippedRegion surface)).top
          (((region16_extents (clippedRegion surface)).right : Int) -
            (region16_extents (clippedRegion surface)).left)
          (((region16_extents (clippedRegion surface)).bottom : Int) -
            (region16_extents (clippedRegion surface)).top)
          surface.scanline settings.MultifragMaxRequestSize]) ∧
    (∀ l : List NSC_MESSAGE, update.SurfaceBits = true →
      (nscEncoded settings encoder surface).yields l →
      ∃ o, shadow_client_send_surface_bits update settings encoder surface = some o ∧
        o.sent.length = l.length ∧
        ∀ (i : Nat) (hi : i < l.length), ∃ c, o.sent[i]? = some c ∧
          c.destLeft = l[i].x ∧ c.destTop = l[i].y ∧
          c.destRight = (l[i].x + l[i].width) % 4294967296 ∧
          c.destBottom = (l[i].y + l[i].height) % 4294967296 ∧
          (l[i].x + l[i].width < 4294967296 → c.destRight = l[i].x + l[i].width) ∧
          (l[i].y + l[i].height < 4294967296 → c.destBottom = l[i].y + l[i].height)) ∧
    (∀ (data payload : List Nat) (scanline : Int), update.SurfaceBits = true →
      (nscEncoded settings encoder
        { width := 1920, height := 1080, scanline := scanline, data := data,
          invalidRegion := [{ left := 0, top := 0, right := 100, bottom := 50 }] }).yields
        [{ x := 0, y := 0, width := 100, height := 50, data := payload }] →
      ∃ o c, shadow_client_send_surface_bits update settings encoder
          { width := 1920, height := 1080, scanline := scanline, data := data,
            invalidRegion := [{ left := 0, top := 0, right := 100, bottom := 50 }] } = some o ∧
        o.calls = [EncoderCall.nsc 0 0 100 50 scanline settings.MultifragMaxRequestSize] ∧
        o.sent = [c] ∧ c.destLeft = 0 ∧ c.destTop = 0 ∧
        c.destRight = 100 ∧ c.destBottom = 50) := by
  refine ⟨?_, ?_, ?_⟩
  · intro o ho
    exact (send_nsc_calls update settings encoder surface hne hfx hns o ho).1
  · intro l hsb hy
    refine ⟨_, send_nsc_yields update settings encoder surface l hne hfx hns hsb hy,
      by simp, ?_⟩
    intro i hi
    refine ⟨nscCommand settings encoder l[i], by simp [List.getElem?_eq_getElem hi],
      rfl, rfl, rfl, rfl, ?_, ?_⟩
    · intro h
      exact Nat.mod_eq_of_lt h
    · intro h
      exact Nat.mod_eq_of_lt h
  · intro data payload scanline hsb hy
    exact ⟨_, _, send_nsc_yields update settings encoder _ _ rfl hfx hns hsb hy,
      rfl, rfl, rfl, rfl, rfl, rfl⟩

/-- Witness for C5: the scenario itself, with the codec that returns the requested
rectangle as one tile. -/
theorem c5_nsc_bounding_box_and_tiles_witness :
    region16_is_empty (clippedRegion (exSurface [exRect])) = false ∧
    (exSettings false true).RemoteFxCodec = false ∧
    (exSettings false true).NSCodec = true ∧
    ∃ o c, shadow_client_send_surface_bits (exUpdate true) (exSettings false true) exEncoder
        (exSurface [exRect]) = some o ∧
      o.calls = [EncoderCall.nsc 0 0 100 50 7680 65535] ∧
      o.sent = [c] ∧ c.destLeft = 0 ∧ c.destTop = 0 ∧
      c.destRight = 100 ∧ c.destBottom = 50 :=
  ⟨by decide, rfl, rfl,
   (c5_nsc_bounding_box_and_tiles (exUpdate true) (exSettings false true) exEncoder
     (exSurface [exRect]) (by decide) rfl rfl).2.2 [] [] 7680 rfl ⟨rfl, rfl⟩⟩

/-! ## Pixels of clipped regions and of their extents -/

theorem rectangles_intersection_none (r1 r2 : RECTANGLE_16)
    (h : rectangles_intersection r1 r2 = none) (x y : Nat) :
    (r1.contains x y && r2.contains x y) = false := by
  simp only [rectangles_intersection] at h
  split at h
  · cases h
  · rename_i hd
    rw [Bool.eq_false_iff]
    intro hc
    apply hd
    simp only [RECTANGLE_16.contains, Bool.and_eq_true, decide_eq_true_eq] at hc
    simp only [max_lt_iff, lt_min_iff]
    omega

theorem intersect_rect_contains (g : REGION16) (rect : RECTANGLE_16) (x y : Nat) :
    REGION16.contains (region16_intersect_rect g rect) x y =
      (REGION16.contains g x y && rect.contains x y) := by
  induction g with
  | nil => simp [region16_intersect_rect, REGION16.contains]
  | cons r g ih =>
    unfold region16_intersect_rect REGION16.contains at ih ⊢
    cases hd : rectangles_intersection r rect with
    | none =>
      have hn := rectangles_intersection_none r rect hd x y
      have hf : List.filterMap (fun r => rectangles_intersection r rect) (r :: g) =
          List.filterMap (fun r => rectangles_intersection r rect) g := by
        simp [List.filterMap_cons, hd]
      rw [hf, ih, List.any_cons]
      cases h1 : r.contains x y <;> cases h2 : rect.contains x y <;> simp_all
    | some d =>
      have hs := rectangles_intersection_contains r rect d hd x y
      have hf : List.filterMap (fun r => rectangles_intersection r rect) (r :: g) =
          d :: List.filterMap (fun r => rectangles_intersection r rect) g := by
        simp [List.filterMap_cons, hd]
      rw [hf, List.any_cons, ih, List.any_cons, hs]
      cases h1 : r.contains x y <;> cases h2 : rect.contains x y <;> simp

theorem union_rect_contains (g : REGION16) (rect : RECTANGLE_16) (x y : Nat) :
    REGION16.contains (region16_union_rect g rect) x y =
      (REGION16.contains g x y || rect.contains x y) := by
  unfold region16_union_rect
  split
  · simp [REGION16.contains]
  · rename_i hd
    have : rect.contains x y = false := by
      rw [Bool.eq_false_iff]
      intro hc
      apply hd
      simp only [RECTANGLE_16.contains, Bool.and_eq_true, decide_eq_true_eq] at hc
      omega
    simp [this]

theorem accumulate_contains (reported : List RECTANGLE_16) :
    ∀ (g : REGION16) (x y : Nat), REGION16.contains (accumulate g reported) x y =
      (REGION16.contains g x y || reported.any (fun r => r.contains x y)) := by
  induction reported with
  | nil => intro g x y; simp [accumulate]
  | cons r rest ih =>
    intro g x y
    have := ih (region16_union_rect g r) x y
    unfold accumulate at this ⊢
    rw [List.foldl_cons, this, union_rect_contains, List.any_cons, Bool.or_assoc]

theorem region16_extents_cons (r r2 : RECTANGLE_16) (g : REGION16) :
    region16_extents (r :: r2 :: g) =
      { left := min r.left (region16_extents (r2 :: g)).left,
        top := min r.top (region16_extents (r2 :: g)).top,
        right := max r.right (region16_extents (r2 :: g)).right,
        bottom := max r.bottom (region16_extents (r2 :: g)).bottom } := rfl

/-- The extents hold every rectangle of the region. -/
theorem region16_extents_bounds (g : REGION16) :
    ∀ r ∈ g, (region16_extents g).left ≤ r.left ∧ (region16_extents g).top ≤ r.top ∧
      r.right ≤ (region16_extents g).right ∧ r.bottom ≤ (region16_extents g).bottom := by
  induction g with
  | nil => intro r hr; cases hr
  | cons a g ih =>
    cases g with
    | nil =>
      intro r hr
      simp only [List.mem_singleton] at hr
      subst hr
      simp [region16_extents]
    | cons b g =>
      intro r hr
      rw [region16_extents_cons]
      rcases List.mem_cons.1 hr with h | h
      · subst h
        simp
      · obtain ⟨h1, h2, h3, h4⟩ := ih r h
        simp only [min_le_iff, le_max_iff]
        exact ⟨Or.inr h1, Or.inr h2, Or.inr h3, Or.inr h4⟩

/-- The extents of a non-empty region stay inside any rectangle that holds all of its
rectangles. -/
theorem region16_extents_within (b : RECTANGLE_16) (g : REGION16) (hg : g ≠ [])
    (h : ∀ r ∈ g, b.left ≤ r.left ∧ b.top ≤ r.top ∧ r.right ≤ b.right ∧ r.bottom ≤ b.bottom) :
    b.left ≤ (region16_extents g).left ∧ b.top ≤ (region16_extents g).top ∧
      (region16_extents g).right ≤ b.right ∧ (region16_extents g).bottom ≤ b.bottom := by
  induction g with
  | nil => exact absurd rfl hg
  | cons a g ih =>
    cases g with
    | nil => exact h a (List.mem_singleton.2 rfl)
    | cons c g =>
      rw [region16_extents_cons]
      have ha := h a (List.mem_cons_self _ _)
      have ht := ih (List.cons_ne_nil _ _) (fun r hr => h r (List.mem_cons_of_mem _ hr))
      simp only [le_min_iff, max_le_iff]
      exact ⟨⟨ha.1, ht.1⟩, ⟨ha.2.1, ht.2.1⟩, ⟨ha.2.2.1, ht.2.2.1⟩, ⟨ha.2.2.2, ht.2.2.2⟩⟩

theorem extents_contains_of_region (g : REGION16) (x y : Nat)
    (h : REGION16.contains g x y = true) : (region16_extents g).contains x y = true := by
  unfold REGION16.contains at h
  rw [List.any_eq_true] at h
  obtain ⟨r, hr, hc⟩ := h
  obtain ⟨h1, h2, h3, h4⟩ := region16_extents_bounds g r hr
  simp only [RECTANGLE_16.contains, Bool.and_eq_true, decide_eq_true_eq] at hc ⊢
  omega

theorem clipped_within_surfaceRect (surface : rdpShadowSurface) :
    ∀ r ∈ clippedRegion surface,
      (surfaceRect surface).left ≤ r.left ∧ (surfaceRect surface).top ≤ r.top ∧
      r.right ≤ (surfaceRect surface).right ∧ r.bottom ≤ (surfaceRect surface).bottom := by
  intro r hr
  unfold clippedRegion region16_intersect_rect at hr
  rw [List.mem_filterMap] at hr
  obtain ⟨a, _, ha⟩ := hr
  simp only [rectangles_intersection] at ha
  split at ha
  · cases ha
    simp
  · cases ha

theorem surfaceRect_contains (surface : rdpShadowSurface)
    (hw : 0 ≤ surface.width ∧ surface.width ≤ 65535)
    (hh : 0 ≤ surface.height ∧ surface.height ≤ 65535) (x y : Nat) :
    (surfaceRect surface).contains x y = boundsContains surface x y := by
  rw [Bool.eq_iff_iff]
  simp only [surfaceRect, RECTANGLE_16.contains, boundsContains, toUINT16, Bool.and_eq_true,
    decide_eq_true_eq]
  omega

theorem any_map_const {α β : Type} (f : α → β) (p : β → Bool) (b : Bool)
    (hc : ∀ a, p (f a) = b) (l : List α) (hl : l ≠ []) : (l.map f).any p = b := by
  induction l with
  | nil => exact absurd rfl hl
  | cons a t ih =>
    cases t with
    | nil => simp [hc a]
    | cons c t =>
      rw [List.map_cons, List.any_cons, ih (List.cons_ne_nil _ _), hc a]
      simp

theorem destContains_rfx {RM : Type} (settings : rdpSettings) (encoder : rdpShadowEncoder RM)
    (surface : rdpShadowSurface) (l : List RM) (hl : l ≠ [])
    (hw : 0 ≤ surface.width ∧ surface.width ≤ 65535)
    (hh : 0 ≤ surface.height ∧ surface.height ≤ 65535) (x y : Nat) :
    destContains (l.map (rfxCommand settings encoder surface)) x y =
      boundsContains surface x y := by
  have hc : ∀ m : RM,
      (decide ((rfxCommand settings encoder surface m).destLeft ≤ x) &&
        decide (x < (rfxCommand settings encoder surface m).destRight) &&
        decide ((rfxCommand settings encoder surface m).destTop ≤ y) &&
        decide (y < (rfxCommand settings encoder surface m).destBottom)) =
      boundsContains surface x y := by
    intro m
    rw [Bool.eq_iff_iff]
    simp only [rfxCommand, boundsContains, toUINT32, Bool.and_eq_true, decide_eq_true_eq]
    omega
  unfold destContains
  exact any_map_const _ _ _ hc l hl

theorem destContains_nsc {RM : Type} (settings : rdpSettings) (encoder : rdpShadowEncoder RM)
    (x y : Nat) (l : List NSC_MESSAGE)
    (hov : ∀ m ∈ l, m.x + m.width < 4294967296 ∧ m.y + m.height < 4294967296) :
    destContains (l.map (nscCommand settings encoder)) x y =
      l.any (fun m => m.contains x y) := by
  induction l with
  | nil => rfl
  | cons m t ih =>
    have hm := hov m (List.mem_cons_self _ _)
    have ht := ih (fun q hq => hov q (List.mem_cons_of_mem _ hq))
    unfold destContains at ht ⊢
    rw [List.map_cons, List.any_cons, List.any_cons, ht]
    simp only [nscCommand, NSC_MESSAGE.contains, Nat.mod_eq_of_lt hm.1, Nat.mod_eq_of_lt hm.2]

/-- C2 as stated fails: on the 1920x1080 surface, after the single report (0,0)-(100,50),
a RemoteFX pass over a one-fragment transform emits a destination rectangle that holds
pixel (500,500), which is not in clip(bounds, union(reported)). -/
theorem c2_counterexample :
    ∃ o, shadow_client_send_surface_bits (exUpdate true) (exSettings true false) exEncoder
        (exSurface (accumulate [] [exRect])) = some o ∧
      destContains o.sent 500 500 = true ∧
      clipContains (exSurface (accumulate [] [exRect])) [exRect] 500 500 = false :=
  ⟨_, rfl, by decide, by decide⟩

/-- C2 (amended): for a surface whose dimensions fit 16 bits, after any sequence of
reported rectangles accumulated into an empty invalid region that leaves a non-empty
clipped region, one pass (handler installed, transform succeeding) emits destination
rectangles whose union contains clip(bounds, union(reported)) and lies inside the surface
bounds: under RemoteFX (at least one fragment) the union is the whole bounds rectangle,
under NSCodec (tiles without `UINT32` overflow that together cover exactly the requested
rectangle) it is the bounding box of the clipped region. -/
theorem c2_destinations_cover_clipped_region {RM : Type} (update : rdpUpdate)
    (settings : rdpSettings) (encoder : rdpShadowEncoder RM) (surface : rdpShadowSurface)
    (reported : List RECTANGLE_16)
    (hacc : surface.invalidRegion = accumulate [] reported)
    (hw : 0 ≤ surface.width ∧ surface.width ≤ 65535)
    (hh : 0 ≤ surface.height ∧ surface.height ≤ 65535)
    (hne : region16_is_empty (clippedRegion surface) = false)
    (hsb : update.SurfaceBits = true) :
    (∀ l : List RM, settings.RemoteFxCodec = true →
      (rfxEncoded settings encoder surface).yields l → l ≠ [] →
      ∃ o, shadow_client_send_surface_bits update settings encoder surface = some o ∧
        ∀ x y, destContains o.sent x y = boundsContains surface x y ∧
          (clipContains surface reported x y = true → destContains o.sent x y = true) ∧
          (destContains o.sent x y = true → boundsContains surface x y = true)) ∧
    (∀ l : List NSC_MESSAGE, settings.RemoteFxCodec = false → settings.NSCodec = true →
      (nscEncoded settings encoder surface).yields l →
      (∀ m ∈ l, m.x + m.width < 4294967296 ∧ m.y + m.height < 4294967296) →
      (∀ x y, l.any (fun m => m.contains x y) =
        (region16_extents (clippedRegion surface)).contains x y) →
      ∃ o, shadow_client_send_surface_bits update settings encoder surface = some o ∧
        ∀ x y, destContains o.sent x y =
            (region16_extents (clippedRegion surface)).contains x y ∧
          (clipContains surface reported x y = true → destContains o.sent x y = true) ∧
          (destContains o.sent x y = true → boundsContains surface x y = true)) := by
  have hclip : ∀ x y, clipContains surface reported x y =
      REGION16.contains (clippedRegion surface) x y := by
    intro x y
    unfold clippedRegion
    rw [intersect_rect_contains, hacc, accumulate_contains,
      surfaceRect_contains surface hw hh]
    simp [clipContains, REGION16.contains]
  constructor
  · intro l hfx hy hl
    refine ⟨_, send_rfx_yields update settings encoder surface l hne hfx hsb hy, ?_⟩
    intro x y
    have hd := destContains_rfx settings encoder surface l hl hw hh x y
    refine ⟨hd, ?_, ?_⟩
    · intro hc
      show destContains (l.map (rfxCommand settings encoder surface)) x y = true
      rw [hd]
      simp only [clipContains, Bool.and_eq_true] at hc
      exact hc.2
    · intro hc
      rw [← hd]
      exact hc
  · intro l hfx hns hy hov htile
    refine ⟨_, send_nsc_yields update settings encoder surface l hne hfx hns hsb hy, ?_⟩
    intro x y
    have hd : destContains (l.map (nscCommand settings encoder)) x y =
        (region16_extents (clippedRegion surface)).contains x y := by
      rw [destContains_nsc settings encoder x y l hov, htile]
    refine ⟨hd, ?_, ?_⟩
    · intro hc
      show destContains (l.map (nscCommand settings encoder)) x y = true
      rw [hd]
      rw [hclip] at hc
      exact extents_contains_of_region _ x y hc
    · intro hc
      have hc2 : (region16_extents (clippedRegion surface)).contains x y = true := by
        rw [← hd]
        exact hc
      have hg : clippedRegion surface ≠ [] := by
        intro hnil
        rw [hnil] at hne
        cases hne
      obtain ⟨h1, h2, h3, h4⟩ := region16_extents_within (surfaceRect surface)
        (clippedRegion surface) hg (clipped_within_surfaceRect surface)
      rw [← surfaceRect_contains surface hw hh]
      simp only [RECTANGLE_16.contains, Bool.and_eq_true, decide_eq_true_eq] at hc2 ⊢
      omega

/-- Witness for the amended C2: the report (0,0)-(100,50) on the 1920x1080 surface, under
RemoteFX (one fragment) and under NSCodec (the requested rectangle as one tile); pixel
(50,20) of the clipped dirty area is covered in both cases. -/
theorem c2_destinations_cover_clipped_region_witness :
    (exSurface (accumulate [] [exRect])).invalidRegion = accumulate [] [exRect] ∧
    (0 ≤ (exSurface (accumulate [] [exRect])).width ∧
      (exSurface (accumulate [] [exRect])).width ≤ 65535) ∧
    (0 ≤ (exSurface (accumulate [] [exRect])).height ∧
      (exSurface (accumulate [] [exRect])).height ≤ 65535) ∧
    region16_is_empty (clippedRegion (exSurface (accumulate [] [exRect]))) = false ∧
    (exUpdate true).SurfaceBits = true ∧
    clipContains (exSurface (accumulate [] [exRect])) [exRect] 50 20 = true ∧
    (∃ o, shadow_client_send_surface_bits (exUpdate true) (exSettings true false) exEncoder
        (exSurface (accumulate [] [exRect])) = some o ∧
      destContains o.sent 50 20 = true) ∧
    (∃ o, shadow_client_send_surface_bits (exUpdate true) (exSettings false true) exEncoder
        (exSurface (accumulate [] [exRect])) = some o ∧
      destContains o.sent 50 20 = true) := by
  obtain ⟨o, ho, hcov⟩ :=
    (c2_destinations_cover_clipped_region (exUpdate true) (exSettings true false) exEncoder
      (exSurface (accumulate [] [exRect])) [exRect] rfl (by decide) (by decide) (by decide)
      rfl).1 [7] rfl ⟨rfl, rfl⟩ (by decide)
  obtain ⟨q, hq, hqcov⟩ :=
    (c2_destinations_cover_clipped_region (exUpdate true) (exSettings false true) exEncoder
      (exSurface (accumulate [] [exRect])) [exRect] rfl (by decide) (by decide) (by decide)
      rfl).2 [{ x := 0, y := 0, width := 100, height := 50, data := [] }] rfl rfl ⟨rfl, rfl⟩
      (by decide)
      (fun x y => by
        have he : region16_extents (clippedRegion (exSurface (accumulate [] [exRect]))) =
            ⟨0, 0, 100, 50⟩ := by decide
        rw [he]
        simp [NSC_MESSAGE.contains, RECTANGLE_16.contains])
  exact ⟨rfl, by decide, by decide, by decide, rfl, by decide,
    ⟨o, ho, (hcov 50 20).2.1 (by decide)⟩, ⟨q, hq, (hqcov 50 20).2.1 (by decide)⟩⟩

/-! ## Claims on the connection callbacks -/

/-- C9 as stated fails: when the desktop-resize notification fails, post-connect still
returns TRUE. -/
theorem c9_counterexample :
    (shadow_client_post_connect (exUpdate false) (exClient true false [])).events =
      [Event.DesktopResize false] ∧
    (shadow_client_post_connect (exUpdate false) (exClient true false [])).ret = true := by
  decide

/-- C9 (amended): `shadow_client_post_connect` sets the peer's desktop width and height to
the width and height of the server screen and the color depth to 32, triggers exactly one
desktop-resize notification (on the updated settings), touches nothing else of the
session, and returns TRUE whatever the outcome of that notification. -/
theorem c9_post_connect_pushes_geometry (update : rdpUpdate) (client : rdpShadowClient)
    (hw : 0 ≤ client.screen.width ∧ client.screen.width < 2147483648)
    (hh : 0 ≤ client.screen.height ∧ client.screen.height < 2147483648) :
    ((shadow_client_post_connect update client).client.settings.DesktopWidth : Int) =
      client.screen.width ∧
    ((shadow_client_post_connect update client).client.settings.DesktopHeight : Int) =
      client.screen.height ∧
    (shadow_client_post_connect update client).client.settings.ColorDepth = 32 ∧
    (shadow_client_post_connect update client).events =
      [Event.DesktopResize
        (update.DesktopResize (shadow_client_post_connect update client).client.settings)] ∧
    (shadow_client_post_connect update client).client.activated = client.activated ∧
    (shadow_client_post_connect update client).client.surface = client.surface ∧
    (shadow_client_post_connect update client).ret = true :=
  ⟨toUINT32_of_int _ hw.1 hw.2, toUINT32_of_int _ hh.1 hh.2, rfl, rfl, rfl, rfl, rfl⟩

/-- Witness for the amended C9: the 1920x1080 screen with a failing notification. -/
theorem c9_post_connect_pushes_geometry_witness :
    (0 ≤ (exClient true false []).screen.width ∧
      (exClient true false []).screen.width < 2147483648) ∧
    (0 ≤ (exClient true false []).screen.height ∧
      (exClient true false []).screen.height < 2147483648) ∧
    (shadow_client_post_connect (exUpdate false)
      (exClient true false [])).client.settings.ColorDepth = 32 ∧
    (shadow_client_post_connect (exUpdate false) (exClient true false [])).ret = true :=
  ⟨by decide, by decide,
   (c9_post_connect_pushes_geometry (exUpdate false) (exClient true false [])
     (by decide) (by decide)).2.2.1,
   (c9_post_connect_pushes_geometry (exUpdate false) (exClient true false [])
     (by decide) (by decide)).2.2.2.2.2.2⟩

/-! ## Lemmas on the session loop -/

theorem run_activated (update : rdpUpdate) (cb : PeerCallback) (c : rdpShadowClient) :
    (cb.run update c).client.activated = (c.activated || decide (cb = PeerCallback.Activate)) := by
  cases cb <;>
    simp [PeerCallback.run, shadow_client_capabilities, shadow_client_post_connect,
      shadow_client_activate]

theorem run_surface (update : rdpUpdate) (cb : PeerCallback) (c : rdpShadowClient) :
    (cb.run update c).client.surface = c.surface := by
  cases cb <;> rfl

theorem run_events (update : rdpUpdate) (cb : PeerCallback) (c : rdpShadowClient) :
    ∀ e ∈ (cb.run update c).events, e.isEncode = false ∧ e.isTeardown = false := by
  cases cb <;>
    simp [PeerCallback.run, shadow_client_capabilities, shadow_client_post_connect,
      shadow_client_activate, Event.isEncode, Event.isTeardown]

theorem runCallbacks_activated (update : rdpUpdate) (cbs : List PeerCallback) :
    ∀ c : rdpShadowClient, (runCallbacks update cbs c).1.activated =
      (c.activated || decide (PeerCallback.Activate ∈ cbs)) := by
  induction cbs with
  | nil => intro c; simp [runCallbacks]
  | cons cb rest ih =>
    intro c
    simp only [runCallbacks, ih, run_activated, List.mem_cons]
    cases c.activated <;> cases cb <;> simp

theorem runCallbacks_surface (update : rdpUpdate) (cbs : List PeerCallback) :
    ∀ c : rdpShadowClient, (runCallbacks update cbs c).1.surface = c.surface := by
  induction cbs with
  | nil => intro c; rfl
  | cons cb rest ih =>
    intro c
    simp only [runCallbacks, ih, run_surface]

theorem runCallbacks_events (update : rdpUpdate) (cbs : List PeerCallback) :
    ∀ (c : rdpShadowClient), ∀ e ∈ (runCallbacks update cbs c).2,
      e.isEncode = false ∧ e.isTeardown = false := by
  induction cbs with
  | nil => intro c e he; simp [runCallbacks] at he
  | cons cb rest ih =>
    intro c e he
    simp only [runCallbacks, List.mem_append] at he
    rcases he with he | he
    · exact run_events update cb c e he
    · exact ih _ e he

theorem transportStep_events {RM : Type} (update : rdpUpdate) (inp : TickInput RM)
    (c : rdpShadowClient) :
    ∀ e ∈ (transportStep update inp c).events, e.isEncode = false ∧ e.isTeardown = false := by
  intro e he
  unfold transportStep at he
  split at he
  · simp only [List.mem_append, List.mem_singleton] at he
    rcases he with he | he
    · exact runCallbacks_events update _ _ e he
    · subst he
      exact ⟨rfl, rfl⟩
  · cases he

theorem transportStep_exit {RM : Type} (update : rdpUpdate) (inp : TickInput RM)
    (c : rdpShadowClient) :
    (transportStep update inp c).exit = (inp.clientEvent && !inp.checkOk) := by
  unfold transportStep
  cases inp.clientEvent <;> simp

theorem transportStep_activated {RM : Type} (update : rdpUpdate) (inp : TickInput RM)
    (c : rdpShadowClient) :
    (transportStep update inp c).client.activated =
      (c.activated || (inp.clientEvent && decide (PeerCallback.Activate ∈ inp.callbacks))) := by
  unfold transportStep
  cases inp.clientEvent <;> simp [runCallbacks_activated]

theorem transportStep_surface {RM : Type} (update : rdpUpdate) (inp : TickInput RM)
    (c : rdpShadowClient) : (transportStep update inp c).client.surface = c.surface := by
  unfold transportStep
  cases inp.clientEvent <;> simp [runCallbacks_surface]

theorem captureStep_activated {RM : Type} (inp : TickInput RM) (c : rdpShadowClient) :
    (captureStep inp c).1.activated = c.activated := by
  unfold captureStep
  cases inp.subsystemEvent <;> rfl

theorem captureStep_events {RM : Type} (inp : TickInput RM) (c : rdpShadowClient) :
    ∀ e ∈ (captureStep inp c).2, e.isEncode = false ∧ e.isTeardown = false := by
  intro e he
  unfold captureStep at he
  split at he
  · simp only [List.mem_singleton] at he
    subst he
    exact ⟨rfl, rfl⟩
  · cases he

theorem captureStep_region {RM : Type} (inp : TickInput RM) (c : rdpShadowClient) :
    (captureStep inp c).1.surface.invalidRegion =
      if inp.subsystemEvent then inp.check_event c.surface.invalidRegion
      else c.surface.invalidRegion := by
  unfold captureStep
  cases inp.subsystemEvent <;> rfl

theorem encodeStep_inactive {RM : Type} (update : rdpUpdate) (inp : TickInput RM)
    (c : rdpShadowClient) (h : c.activated = false) :
    encodeStep update inp c = some (c, []) := by
  simp [encodeStep, h]

theorem encodeStep_active {RM : Type} (update : rdpUpdate) (inp : TickInput RM)
    (c : rdpShadowClient) (h : c.activated = true) :
    encodeStep update inp c =
      (shadow_client_send_surface_bits update c.settings inp.encoder
          (inp.surface_copy c.surface)).map
        (fun o =>
          ({ c with surface := { inp.surface_copy c.surface with
                                 invalidRegion := region16_clear o.invalidRegion } },
           [Event.x11_shadow_surface_copy, Event.send_surface_bits o, Event.region16_clear])) := by
  simp only [encodeStep, h, if_true]
  cases shadow_client_send_surface_bits update c.settings inp.encoder
    (inp.surface_copy c.surface) <;> rfl

theorem encodeStep_result {RM : Type} (update : rdpUpdate) (inp : TickInput RM)
    (c : rdpShadowClient) (q : rdpShadowClient × List Event)
    (h : encodeStep update inp c = some q) :
    q.1.activated = c.activated ∧ ∀ e ∈ q.2, e.isTeardown = false := by
  cases ha : c.activated with
  | false =>
    rw [encodeStep_inactive update inp c ha] at h
    cases h
    exact ⟨ha, fun e he => (by cases he)⟩
  | true =>
    rw [encodeStep_active update inp c ha] at h
    cases hsend : shadow_client_send_surface_bits update c.settings inp.encoder
      (inp.surface_copy c.surface) with
    | none => rw [hsend] at h; cases h
    | some o =>
      rw [hsend] at h
      cases h
      refine ⟨ha, ?_⟩
      intro e he
      simp only [List.mem_cons, List.mem_singleton, List.not_mem_nil, or_false] at he
      rcases he with he | he | he <;> subst he <;> rfl

theorem encodeStep_returns {RM : Type} (update : rdpUpdate) (inp : TickInput RM)
    (c : rdpShadowClient) (hs : inp.encoder.Safe) :
    ∃ q, encodeStep update inp c = some q := by
  cases ha : c.activated with
  | false => exact ⟨_, encodeStep_inactive update inp c ha⟩
  | true =>
    obtain ⟨o, ho⟩ := send_returns update c.settings inp.encoder
      (inp.surface_copy c.surface) hs
    rw [encodeStep_active update inp c ha, ho]
    exact ⟨_, rfl⟩

theorem tick_stop {RM : Type} (update : rdpUpdate) (inp : TickInput RM) (c : rdpShadowClient)
    (h : inp.stop = true) :
    tick update inp c = some { client := c, events := [], exit := true } := by
  simp [tick, h]

theorem tick_running {RM : Type} (update : rdpUpdate) (inp : TickInput RM)
    (c : rdpShadowClient) (h : inp.stop = false) :
    tick update inp c =
      if (transportStep update inp c).exit then some (transportStep update inp c)
      else (encodeStep update inp (captureStep inp (transportStep update inp c).client).1).map
        (fun e => { client := e.1,
                    events := (transportStep update inp c).events ++
                      (captureStep inp (transportStep update inp c).client).2 ++ e.2,
                    exit := false }) := by
  simp only [tick, h, Bool.false_eq_true, if_false]
  split
  · rfl
  · cases encodeStep update inp (captureStep inp (transportStep update inp c).client).1 <;> rfl

theorem tick_returns {RM : Type} (update : rdpUpdate) (inp : TickInput RM)
    (c : rdpShadowClient) (hs : inp.encoder.Safe) : ∃ r, tick update inp c = some r := by
  cases hstop : inp.stop with
  | true => exact ⟨_, tick_stop update inp c hstop⟩
  | false =>
    rw [tick_running update inp c hstop]
    split
    · exact ⟨_, rfl⟩
    · obtain ⟨q, hq⟩ := encodeStep_returns update inp
        (captureStep inp (transportStep update inp c).client).1 hs
      rw [hq]
      exact ⟨_, rfl⟩

theorem tick_result {RM : Type} (update : rdpUpdate) (inp : TickInput RM)
    (c : rdpShadowClient) (r : TickResult) (h : tick update inp c = some r) :
    (∀ e ∈ r.events, e.isTeardown = false) ∧
    r.exit = (inp.stop || (inp.clientEvent && !inp.checkOk)) ∧
    (r.client.activated = true → c.activated = true ∨
      (inp.stop = false ∧ inp.clientEvent = true ∧ PeerCallback.Activate ∈ inp.callbacks)) := by
  cases hstop : inp.stop with
  | true =>
    rw [tick_stop update inp c hstop] at h
    cases h
    exact ⟨fun e he => (by cases he), rfl, fun ha => Or.inl ha⟩
  | false =>
    rw [tick_running update inp c hstop] at h
    have hact := transportStep_activated update inp c
    have hex := transportStep_exit update inp c
    have hact2 : (transportStep update inp c).client.activated = true → c.activated = true ∨
        (false = false ∧ inp.clientEvent = true ∧ PeerCallback.Activate ∈ inp.callbacks) := by
      intro ha
      rw [hact] at ha
      simp only [Bool.or_eq_true, Bool.and_eq_true, decide_eq_true_eq] at ha
      rcases ha with ha | ha
      · exact Or.inl ha
      · exact Or.inr ⟨rfl, ha.1, ha.2⟩
    split at h
    · rename_i hx
      cases h
      exact ⟨fun e he => (transportStep_events update inp c e he).2,
        by rw [hx, ← hex, hx]; rfl, hact2⟩
    · rename_i hx
      cases hq : encodeStep update inp (captureStep inp (transportStep update inp c).client).1 with
      | none => rw [hq] at h; cases h
      | some q =>
        rw [hq] at h
        cases h
        obtain ⟨hqa, hqe⟩ := encodeStep_result update inp _ q hq
        refine ⟨?_, ?_, ?_⟩
        · intro e he
          simp only [List.mem_append] at he
          rcases he with (he | he) | he
          · exact (transportStep_events update inp c e he).2
          · exact (captureStep_events inp _ e he).2
          · exact hqe e he
        · rw [← hex]
          simp only [Bool.false_or]
          cases hxx : (transportStep update inp c).exit with
          | true => exact absurd hxx hx
          | false => rfl
        · intro ha
          simp only at ha
          rw [hqa, captureStep_activated] at ha
          exact hact2 ha

theorem tick_inactive {RM : Type} (update : rdpUpdate) (inp : TickInput RM)
    (c : rdpShadowClient) (h : activatedAtLine327 update inp c = false) :
    ∃ r, tick update inp c = some r ∧ (∀ e ∈ r.events, e.isEncode = false) ∧
      r.client.activated = false ∧
      (r.client.surface.invalidRegion = c.surface.invalidRegion ∨
        r.client.surface.invalidRegion = inp.check_event c.surface.invalidRegion) := by
  unfold activatedAtLine327 at h
  have hc : c.activated = false := by
    have := transportStep_activated update inp c
    rw [h] at this
    cases hca : c.activated with
    | false => rfl
    | true => rw [hca] at this; simp at this
  cases hstop : inp.stop with
  | true =>
    exact ⟨_, tick_stop update inp c hstop, fun e he => (by cases he), hc, Or.inl rfl⟩
  | false =>
    rw [tick_running update inp c hstop]
    split
    · refine ⟨_, rfl, fun e he => (transportStep_events update inp c e he).1, h, Or.inl ?_⟩
      rw [transportStep_surface]
    · have hcap : (captureStep inp (transportStep update inp c).client).1.activated = false := by
        rw [captureStep_activated, h]
      rw [encodeStep_inactive update inp _ hcap]
      refine ⟨_, rfl, ?_, hcap, ?_⟩
      · intro e he
        simp only [List.append_nil, List.mem_append] at he
        rcases he with he | he
        · exact (transportStep_events update inp c e he).1
        · exact (captureStep_events inp _ e he).1
      · simp only
        rw [captureStep_region, transportStep_surface]
        cases inp.subsystemEvent
        · exact Or.inl rfl
        · exact Or.inr rfl

theorem emitted_nil_of_no_encode (evs : List Event) (h : ∀ e ∈ evs, e.isEncode = false) :
    emitted evs = [] := by
  induction evs with
  | nil => rfl
  | cons e rest ih =>
    have he := h e (List.mem_cons_self _ _)
    have hr := ih (fun q hq => h q (List.mem_cons_of_mem _ hq))
    cases e <;> first | exact hr | cases he

theorem sessionLoop_cons {RM : Type} (update : rdpUpdate) (inp : TickInput RM)
    (rest : List (TickInput RM)) (c : rdpShadowClient) (t : TickResult)
    (h : tick update inp c = some t) :
    sessionLoop update (inp :: rest) c =
      if t.exit then some { client := t.client, events := t.events, exited := true }
      else (sessionLoop update rest t.client).map
        (fun q => { q with events := t.events ++ q.events }) := by
  simp only [sessionLoop, h]

theorem sessionLoop_inactive {RM : Type} (update : rdpUpdate) (inputs : List (TickInput RM)) :
    ∀ c : rdpShadowClient, c.activated = false →
      (∀ inp ∈ inputs, PeerCallback.Activate ∉ inp.callbacks) →
      ∃ r, sessionLoop update inputs c = some r ∧
        (∀ e ∈ r.events, e.isEncode = false) ∧ r.client.activated = false := by
  induction inputs with
  | nil =>
    intro c hc _
    exact ⟨_, rfl, fun e he => (by cases he), hc⟩
  | cons inp rest ih =>
    intro c hc hcb
    have hline : activatedAtLine327 update inp c = false := by
      unfold activatedAtLine327
      rw [transportStep_activated, hc]
      have := hcb inp (List.mem_cons_self _ _)
      simp [this]
    obtain ⟨t, ht, hte, hta, _⟩ := tick_inactive update inp c hline
    rw [sessionLoop_cons update inp rest c t ht]
    split
    · exact ⟨_, rfl, hte, hta⟩
    · obtain ⟨q, hq, hqe, hqa⟩ := ih t.client hta
        (fun i hi => hcb i (List.mem_cons_of_mem _ hi))
      rw [hq]
      refine ⟨_, rfl, ?_, hqa⟩
      intro e he
      simp only [List.mem_append] at he
      rcases he with he | he
      · exact hte e he
      · exact hqe e he

theorem sessionLoop_result {RM : Type} (update : rdpUpdate) (inputs : List (TickInput RM)) :
    ∀ (c : rdpShadowClient) (r : RunResult), sessionLoop update inputs c = some r →
      ∀ e ∈ r.events, e.isTeardown = false := by
  induction inputs with
  | nil =>
    intro c r h
    cases h
    exact fun e he => (by cases he)
  | cons inp rest ih =>
    intro c r h
    cases ht : tick update inp c with
    | none => simp [sessionLoop, ht] at h
    | some t =>
      have hte := (tick_result update inp c t ht).1
      rw [sessionLoop_cons update inp rest c t ht] at h
      split at h
      · cases h
        exact hte
      · cases hq : sessionLoop update rest t.client with
        | none => rw [hq] at h; cases h
        | some q =>
          rw [hq] at h
          cases h
          intro e he
          simp only [List.mem_append] at he
          rcases he with he | he
          · exact hte e he
          · exact ih t.client q hq e he

theorem sessionLoop_returns {RM : Type} (update : rdpUpdate) (inputs : List (TickInput RM)) :
    ∀ c : rdpShadowClient, (∀ inp ∈ inputs, inp.encoder.Safe) →
      ∃ r, sessionLoop update inputs c = some r ∧
        ((∃ inp ∈ inputs, inp.stop = true ∨ (inp.clientEvent = true ∧ inp.checkOk = false)) →
          r.exited = true) := by
  induction inputs with
  | nil =>
    intro c _
    exact ⟨_, rfl, fun ⟨i, hi, _⟩ => (by cases hi)⟩
  | cons inp rest ih =>
    intro c hs
    obtain ⟨t, ht⟩ := tick_returns update inp c (hs inp (List.mem_cons_self _ _))
    have hx := (tick_result update inp c t ht).2.1
    rw [sessionLoop_cons update inp rest c t ht]
    split
    · exact ⟨_, rfl, fun _ => rfl⟩
    · rename_i hne
      obtain ⟨q, hq, hqx⟩ := ih t.client (fun i hi => hs i (List.mem_cons_of_mem _ hi))
      rw [hq]
      refine ⟨_, rfl, ?_⟩
      rintro ⟨i, hi, hcond⟩
      rcases List.mem_cons.1 hi with hi | hi
      · subst hi
        exfalso
        apply hne
        rw [hx]
        rcases hcond with hcond | ⟨h1, h2⟩
        · simp [hcond]
        · simp [h1, h2]
      · exact hqx ⟨i, hi, hcond⟩

theorem thread_eq {RM : Type} (update : rdpUpdate) (inputs : List (TickInput RM))
    (c : rdpShadowClient) :
    shadow_client_thread update inputs c =
      (sessionLoop update inputs
        { c with settings :=
          { c.settings with RemoteFxCodec := true, ColorDepth := 32, NlaSecurity := false,
                            TlsSecurity := true, RdpSecurity := false } }).map
        (fun r => if r.exited then
            { r with events := r.events ++
                [Event.Disconnect, Event.freerdp_peer_context_free, Event.freerdp_peer_free] }
          else r) := by
  simp only [shadow_client_thread]
  cases sessionLoop update inputs
      { c with settings :=
        { c.settings with RemoteFxCodec := true, ColorDepth := 32, NlaSecurity := false,
                          TlsSecurity := true, RdpSecurity := false } } with
  | none => rfl
  | some r =>
    simp only [Option.map_some']
    split <;> rfl

/-! ## Claims on the session loop -/

/-- C7: an iteration of the session loop in which the `activated` flag tested at line 327
is false performs no surface copy, no encode pass and no region clear, emits no
`SurfaceBits` command, and leaves the dirty region as it was (or as the capture
subsystem's event handler left it); the flag starts false, `shadow_client_activate` sets
it, and an iteration or a registered callback turns it from false to true only through
the `Activate` callback; hence a run of `shadow_client_thread` from a fresh session whose
peer never invokes `Activate` returns without any encode effect or emitted command. -/
theorem c7_no_encode_before_activation {RM : Type} (update : rdpUpdate) :
    (∀ (inp : TickInput RM) (c : rdpShadowClient), activatedAtLine327 update inp c = false →
      ∃ r, tick update inp c = some r ∧
        (∀ e ∈ r.events, e.isEncode = false) ∧ emitted r.events = [] ∧
        r.client.activated = false ∧
        (r.client.surface.invalidRegion = c.surface.invalidRegion ∨
          r.client.surface.invalidRegion = inp.check_event c.surface.invalidRegion)) ∧
    (∀ settings screen surface,
      (shadow_client_context_new settings screen surface).activated = false) ∧
    (∀ c : rdpShadowClient, (shadow_client_activate c).client.activated = true) ∧
    (∀ (cb : PeerCallback) (c : rdpShadowClient), c.activated = false →
      (cb.run update c).client.activated = true → cb = PeerCallback.Activate) ∧
    (∀ (inp : TickInput RM) (c : rdpShadowClient) (r : TickResult),
      tick update inp c = some r → c.activated = false → r.client.activated = true →
      inp.stop = false ∧ inp.clientEvent = true ∧ PeerCallback.Activate ∈ inp.callbacks) ∧
    (∀ (inputs : List (TickInput RM)) settings screen surface,
      (∀ inp ∈ inputs, PeerCallback.Activate ∉ inp.callbacks) →
      ∃ r, shadow_client_thread update inputs
          (shadow_client_context_new settings screen surface) = some r ∧
        (∀ e ∈ r.events, e.isEncode = false) ∧ emitted r.events = [] ∧
        r.client.activated = false) := by
  refine ⟨?_, fun _ _ _ => rfl, fun _ => rfl, ?_, ?_, ?_⟩
  · intro inp c h
    obtain ⟨r, hr, he, ha, hreg⟩ := tick_inactive update inp c h
    exact ⟨r, hr, he, emitted_nil_of_no_encode _ he, ha, hreg⟩
  · intro cb c hc h
    rw [run_activated, hc] at h
    simpa using h
  · intro inp c r hr hc ha
    rcases (tick_result update inp c r hr).2.2 ha with h | h
    · rw [hc] at h
      cases h
    · exact h
  · intro inputs settings screen surface hcb
    obtain ⟨q, hq, hqe, hqa⟩ := sessionLoop_inactive update inputs
      { shadow_client_context_new settings screen surface with settings :=
        { (shadow_client_context_new settings screen surface).settings with
          RemoteFxCodec := true, ColorDepth := 32, NlaSecurity := false,
          TlsSecurity := true, RdpSecurity := false } } rfl hcb
    rw [thread_eq, hq]
    have hev : ∀ e ∈ (if q.exited then
        { q with events := q.events ++
            [Event.Disconnect, Event.freerdp_peer_context_free, Event.freerdp_peer_free] }
        else q).events, e.isEncode = false := by
      intro e he
      split at he
      · simp only [List.mem_append, List.mem_cons, List.mem_singleton, List.not_mem_nil,
          or_false] at he
        rcases he with he | he | he | he
        · exact hqe e he
        · subst he; rfl
        · subst he; rfl
        · subst he; rfl
      · exact hqe e he
    refine ⟨_, rfl, hev, emitted_nil_of_no_encode _ hev, ?_⟩
    cases hx : q.exited <;> simp [hx, hqa]

/-- Witness for C7: a fresh session with a dirty surface; the first iteration runs the
`Capabilities` and `PostConnect` callbacks and a capture event, the second is a timeout
wake-up; `Activate` is never invoked and nothing is emitted. -/
theorem c7_no_encode_before_activation_witness :
    activatedAtLine327 (exUpdate true)
      (exTick false true true true [PeerCallback.Capabilities, PeerCallback.PostConnect])
      (exClient false true [exRect]) = false ∧
    (∃ r, tick (exUpdate true)
        (exTick false true true true [PeerCallback.Capabilities, PeerCallback.PostConnect])
        (exClient false true [exRect]) = some r ∧ emitted r.events = []) ∧
    (∃ r, shadow_client_thread (exUpdate true)
        [exTick false true true true [PeerCallback.Capabilities, PeerCallback.PostConnect],
         exTick false false true false []]
        (shadow_client_context_new (exSettings false true) { width := 1920, height := 1080 }
          (exSurface [exRect])) = some r ∧ emitted r.events = []) := by
  obtain ⟨r, hr, _, hre, _⟩ :=
    (c7_no_encode_before_activation (exUpdate true)).1
      (exTick false true true true [PeerCallback.Capabilities, PeerCallback.PostConnect])
      (exClient false true [exRect]) (by decide)
  obtain ⟨q, hq, _, hqe, _⟩ :=
    (c7_no_encode_before_activation (exUpdate true)).2.2.2.2.2
      [exTick false true true true [PeerCallback.Capabilities, PeerCallback.PostConnect],
       exTick false false true false []]
      (exSettings false true) { width := 1920, height := 1080 } (exSurface [exRect])
      (by decide)
  exact ⟨by decide, ⟨r, hr, hre⟩, ⟨q, hq, hqe⟩⟩

/-- C8: an iteration that observes the Stop event raised leaves the loop with no
transport drain, capture pull or encode effect, whatever the other signals and the
`activated` flag (so a loop whose first iteration observes Stop exits at once); with codecs
that are `safe` a run returns, and it has left the loop as soon as some iteration observed
Stop or a failing `CheckFileDescriptor`; and every run that left the loop performed, after
the loop's own effects (none of which is a disconnect or a release), exactly one
`Disconnect` followed by the release of the peer context and of the peer, while a run
still in the loop has performed none of them. -/
theorem c8_stop_first_and_single_teardown {RM : Type} (update : rdpUpdate) :
    (∀ (inp : TickInput RM) (c : rdpShadowClient), inp.stop = true →
      tick update inp c = some { client := c, events := [], exit := true } ∧
      ∀ rest, sessionLoop update (inp :: rest) c =
        some { client := c, events := [], exited := true }) ∧
    (∀ (inputs : List (TickInput RM)) (c : rdpShadowClient),
      (∀ inp ∈ inputs, inp.encoder.Safe) →
      ∃ r, shadow_client_thread update inputs c = some r ∧
        ((∃ inp ∈ inputs, inp.stop = true ∨ (inp.clientEvent = true ∧ inp.checkOk = false)) →
          r.exited = true)) ∧
    (∀ (inputs : List (TickInput RM)) (c : rdpShadowClient) (r : RunResult),
      shadow_client_thread update inputs c = some r →
      (r.exited = true →
        (∃ pre, r.events = pre ++
            [Event.Disconnect, Event.freerdp_peer_context_free, Event.freerdp_peer_free] ∧
          ∀ e ∈ pre, e.isTeardown = false) ∧
        r.events.count Event.Disconnect = 1 ∧
        r.events.count Event.freerdp_peer_context_free = 1 ∧
        r.events.count Event.freerdp_peer_free = 1) ∧
      (r.exited = false → ∀ e ∈ r.events, e.isTeardown = false)) := by
  refine ⟨?_, ?_, ?_⟩
  · intro inp c h
    have ht := tick_stop update inp c h
    refine ⟨ht, fun rest => ?_⟩
    rw [sessionLoop_cons update inp rest c _ ht]
    rfl
  · intro inputs c hs
    obtain ⟨q, hq, hqx⟩ := sessionLoop_returns update inputs
      { c with settings :=
        { c.settings with RemoteFxCodec := true, ColorDepth := 32, NlaSecurity := false,
                          TlsSecurity := true, RdpSecurity := false } } hs
    rw [thread_eq, hq]
    refine ⟨_, rfl, ?_⟩
    intro hex
    have := hqx hex
    simp [this]
  · intro inputs c r h
    rw [thread_eq] at h
    cases hq : sessionLoop update inputs
      { c with settings :=
        { c.settings with RemoteFxCodec := true, ColorDepth := 32, NlaSecurity := false,
                          TlsSecurity := true, RdpSecurity := false } } with
    | none => rw [hq] at h; cases h
    | some q =>
      rw [hq] at h
      have hpre := sessionLoop_result update inputs _ q hq
      simp only [Option.map_some', Option.some.injEq] at h
      cases hx : q.exited with
      | true =>
        rw [hx] at h
        simp only [if_true] at h
        subst h
        refine ⟨fun _ => ⟨⟨q.events, rfl, hpre⟩, ?_, ?_, ?_⟩, fun hf => ?_⟩
        · have h0 : q.events.count Event.Disconnect = 0 :=
            List.count_eq_zero.2 (fun hm => by have := hpre _ hm; cases this)
          simp [List.count_append, h0, List.count_cons]
        · have h0 : q.events.count Event.freerdp_peer_context_free = 0 :=
            List.count_eq_zero.2 (fun hm => by have := hpre _ hm; cases this)
          simp [List.count_append, h0, List.count_cons]
        · have h0 : q.events.count Event.freerdp_peer_free = 0 :=
            List.count_eq_zero.2 (fun hm => by have := hpre _ hm; cases this)
          simp [List.count_append, h0, List.count_cons]
        · exact absurd hf (by simp)
      | false =>
        rw [hx] at h
        simp only [Bool.false_eq_true, if_false] at h
        subst h
        exact ⟨fun ht => (by rw [hx] at ht; cases ht), fun _ => hpre⟩

/-- Witness for C8: an activated, dirty session; the first iteration drains the transport
(which invokes `Activate`) and encodes, the second observes Stop together with every other
signal; the run ends with the one disconnect and release. -/
theorem c8_stop_first_and_single_teardown_witness :
    (exTick true true true true [PeerCallback.Activate]).stop = true ∧
    (∀ inp ∈ [exTick false true true true [PeerCallback.Activate],
        exTick true true true true [PeerCallback.Activate]], inp.encoder.Safe) ∧
    tick (exUpdate true) (exTick true true true true [PeerCallback.Activate])
        (exClient true false [exRect]) =
      some { client := exClient true false [exRect], events := [], exit := true } ∧
    (∃ r, shadow_client_thread (exUpdate true)
        [exTick false true true true [PeerCallback.Activate],
         exTick true true true true [PeerCallback.Activate]]
        (exClient true false [exRect]) = some r ∧
      r.exited = true ∧ r.events.count Event.Disconnect = 1) := by
  have hsafe : ∀ inp ∈ [exTick false true true true [PeerCallback.Activate],
      exTick true true true true [PeerCallback.Activate]], inp.encoder.Safe := by
    intro inp hi
    simp only [List.mem_cons, List.mem_singleton, List.not_mem_nil, or_false] at hi
    rcases hi with hi | hi <;> subst hi <;> exact exEncoder_safe
  obtain ⟨r, hr, hx⟩ :=
    (c8_stop_first_and_single_teardown (exUpdate true)).2.1
      [exTick false true true true [PeerCallback.Activate],
       exTick true true true true [PeerCallback.Activate]]
      (exClient true false [exRect]) hsafe
  have hex : r.exited = true :=
    hx ⟨exTick true true true true [PeerCallback.Activate], by simp, Or.inl rfl⟩
  have hshape :=
    ((c8_stop_first_and_single_teardown (exUpdate true)).2.2 _ _ r hr).1 hex
  exact ⟨rfl, hsafe,
    ((c8_stop_first_and_single_teardown (exUpdate true)).1
      (exTick true true true true [PeerCallback.Activate])
      (exClient true false [exRect]) rfl).1,
    ⟨r, hr, hex, hshape.2.1⟩⟩

end Shadow
